import Mathlib

/-!
Verification development for the CAP-UI usage-metering collector and
rate-limit reconciler.  The TypeScript sources are shallowly embedded:
JS numbers are modelled as rationals (costs) and integers (counters),
JS objects and Maps as insertion-ordered association lists, and
timestamps as integer numbers of seconds since the epoch (the JS
runtime is assumed to be in UTC, as it is in the shipped container).
-/

namespace CapUI

/-! Association-list helpers modelling JS object and Map semantics:
insertion order is preserved and new keys are appended at the end,
matching the iteration order of Object.entries and Map. -/

def alFind {κ α : Type} [DecidableEq κ] (k : κ) : List (κ × α) → Option α
  | [] => none
  | (k', v) :: t => if k' = k then some v else alFind k t

def alUpsert {κ α : Type} [DecidableEq κ] (k : κ) (init : α) (f : α → α) :
    List (κ × α) → List (κ × α)
  | [] => [(k, f init)]
  | (k', v) :: t => if k' = k then (k', f v) :: t else (k', v) :: alUpsert k init f t

def alSet {κ α : Type} [DecidableEq κ] (k : κ) (v : α) (l : List (κ × α)) : List (κ × α) :=
  alUpsert k v (fun _ => v) l

/-- Deduplication keeping the first occurrence of each element, matching the
iteration order of a JS Set built from a concatenation of key lists. -/
def dedupF {α : Type} [DecidableEq α] (l : List α) : List α :=
  l.foldl (fun acc a => if a ∈ acc then acc else acc ++ [a]) []

/-! Data model, from src/src/types.ts and the table definitions in db.ts. -/

structure ModelUsage where
  model_name : String
  api_endpoint : String
  request_count : ℤ
  input_tokens : ℤ
  output_tokens : ℤ
  total_tokens : ℤ
  estimated_cost_usd : ℚ

structure SnapRow where
  total_requests : ℤ
  success_count : ℤ
  failure_count : ℤ
  total_tokens : ℤ
  cumulative_cost_usd : ℚ

structure ModelEntry where
  requests : ℤ
  tokens : ℤ
  cost : ℚ
  input_tokens : ℤ
  output_tokens : ℤ

structure EpModelEntry where
  requests : ℤ
  tokens : ℤ
  cost : ℚ

structure EndpointEntry where
  requests : ℤ
  tokens : ℤ
  cost : ℚ
  models : List (String × EpModelEntry)

structure Breakdown where
  models : List (String × ModelEntry)
  endpoints : List (String × EndpointEntry)

def zeroME : ModelEntry := ⟨0, 0, 0, 0, 0⟩

def zeroEpME : EpModelEntry := ⟨0, 0, 0⟩

def zeroEP : EndpointEntry := ⟨0, 0, 0, []⟩

def emptyBreakdown : Breakdown := ⟨[], []⟩

structure DailyRow where
  total_requests : ℤ
  success_count : ℤ
  failure_count : ℤ
  total_tokens : ℤ
  estimated_cost_usd : ℚ
  breakdown : Breakdown

/-! Pricing oracle, from src/src/pricing.ts. -/

structure ModelPricing where
  input : ℚ
  output : ℚ

def startsWithL : List Char → List Char → Bool
  | _, [] => true
  | [], _ :: _ => false
  | a :: s, b :: t => a == b && startsWithL s t

/-- Occurrence of a needle in a haystack, by character list. -/
def occursL (needle : List Char) : List Char → Bool
  | [] => needle == []
  | a :: t => startsWithL (a :: t) needle || occursL needle t

/-- JS String.prototype.includes. -/
def strIncludes (s sub : String) : Bool :=
  (sub == "") || occursL sub.data s.data

/-- JS String.prototype.toLowerCase, restricted to the ASCII lowering
performed by Char.toLower. -/
def strLower (s : String) : String :=
  ⟨s.data.map Char.toLower⟩

/-- Partial pattern scan of findPricingForModel (pricing.ts lines 121 to 127):
skip the default row, return the first entry whose pattern contains the
lowered model name or vice versa. -/
def findPartial (modelLower : String) : List (String × ModelPricing) → Option ModelPricing
  | [] => none
  | (pat, pr) :: t =>
    if pat = "_default" then findPartial modelLower t
    else if strIncludes pat modelLower || strIncludes modelLower pat then some pr
    else findPartial modelLower t

/-- findPricingForModel from pricing.ts lines 109 to 134; the `matched` flag of
the source is unused by callers and dropped here. -/
def findPricingForModel (modelName : String) (pricing : List (String × ModelPricing)) :
    ModelPricing :=
  let modelLower := strLower modelName
  match alFind modelLower pricing with
  | some p => p
  | none =>
    match findPartial modelLower pricing with
    | some p => p
    | none => (alFind "_default" pricing).getD ⟨15/100, 6/10⟩

/-- calculateCost from pricing.ts lines 136 to 145. -/
def calculateCost (inputTokens outputTokens : ℤ) (pricing : ModelPricing) : ℚ :=
  (inputTokens : ℚ) / 1000000 * pricing.input + (outputTokens : ℚ) / 1000000 * pricing.output

/-! Upstream report shape, per the CLIProxy response consumed by
storeUsageData in src/src/collector.ts.  A detail row is the pair of its
input and output token counts. -/

structure UpstreamModel where
  total_requests : ℤ
  total_tokens : ℤ
  details : List (ℤ × ℤ)

structure UpstreamUsage where
  total_requests : ℤ
  success_count : ℤ
  failure_count : ℤ
  total_tokens : ℤ
  apis : List (String × List (String × UpstreamModel))

/-- One ModelUsage row built by the loop of storeUsageData
(collector.ts lines 92 to 123). -/
def recordFor (pricing : List (String × ModelPricing)) (apiEndpoint modelName : String)
    (md : UpstreamModel) : ModelUsage :=
  let inputTok := (md.details.map (·.1)).sum
  let outputTok := (md.details.map (·.2)).sum
  let cost := calculateCost inputTok outputTok (findPricingForModel modelName pricing)
  ⟨modelName, apiEndpoint, md.total_requests, inputTok, outputTok, md.total_tokens, cost⟩

def buildModelRecords (usage : UpstreamUsage) (pricing : List (String × ModelPricing)) :
    List ModelUsage :=
  (usage.apis.map (fun p => p.2.map (fun q => recordFor pricing p.1 q.1 q.2))).flatten

/-- Total cost accumulated for one snapshot (the totalCost variable of
storeUsageData). -/
def snapshotTotalCost (usage : UpstreamUsage) (pricing : List (String × ModelPricing)) : ℚ :=
  ((buildModelRecords usage pricing).map (·.estimated_cost_usd)).sum

/-! Delta Engine (calculateDailyDelta, collector.ts lines 155 to 509). -/

/-- Endpoint key of a record: an empty endpoint string is replaced by
"unknown" (JS `r.api_endpoint || "unknown"`). -/
def epOr (e : String) : String := if e = "" then "unknown" else e

/-- Per-(model, endpoint) map of usage records.  The source keys its Maps by
the string `model_name + "|" + endpoint` and later splits on "|"; we key by
the pair directly, which coincides as long as model names contain no "|". -/
def buildKeyMap (recs : List ModelUsage) : List ((String × String) × ModelUsage) :=
  recs.foldl (fun m r => alSet (r.model_name, epOr r.api_endpoint) r m) []

def getReq (m : List ((String × String) × ModelUsage)) (k : String × String) : ℤ :=
  ((alFind k m).map (·.request_count)).getD 0

def getTok (m : List ((String × String) × ModelUsage)) (k : String × String) : ℤ :=
  ((alFind k m).map (·.total_tokens)).getD 0

def getCost (m : List ((String × String) × ModelUsage)) (k : String × String) : ℚ :=
  ((alFind k m).map (·.estimated_cost_usd)).getD 0

def getIn (m : List ((String × String) × ModelUsage)) (k : String × String) : ℤ :=
  ((alFind k m).map (·.input_tokens)).getD 0

def getOut (m : List ((String × String) × ModelUsage)) (k : String × String) : ℤ :=
  ((alFind k m).map (·.output_tokens)).getD 0

structure Delta5 where
  dReq : ℤ
  dTok : ℤ
  dCost : ℚ
  dIn : ℤ
  dOut : ℤ

/-- Per-key delta with granular restart substitution
(collector.ts lines 240 to 265). -/
def keyDelta (prevMap currMap : List ((String × String) × ModelUsage))
    (k : String × String) : Delta5 :=
  let pReq := getReq prevMap k
  let pTok := getTok prevMap k
  let pCost := getCost prevMap k
  let pIn := getIn prevMap k
  let pOut := getOut prevMap k
  let cReq := getReq currMap k
  let cTok := getTok currMap k
  let cCost := getCost currMap k
  let cIn := getIn currMap k
  let cOut := getOut currMap k
  if cReq - pReq < 0 ∨ cTok - pTok < 0 then ⟨cReq, cTok, cCost, cIn, cOut⟩
  else ⟨cReq - pReq, cTok - pTok, cCost - pCost, cIn - pIn, cOut - pOut⟩

def addME (d : Delta5) (e : ModelEntry) : ModelEntry :=
  ⟨e.requests + d.dReq, e.tokens + d.dTok, e.cost + d.dCost,
   e.input_tokens + d.dIn, e.output_tokens + d.dOut⟩

def addEpME (d : Delta5) (e : EpModelEntry) : EpModelEntry :=
  ⟨e.requests + d.dReq, e.tokens + d.dTok, e.cost + d.dCost⟩

/-- Fold one surviving per-key delta into the breakdown maps
(collector.ts lines 282 to 326). -/
def bumpBreakdown (modelName endpoint : String) (d : Delta5) (bd : Breakdown) : Breakdown :=
  { models := alUpsert modelName zeroME (addME d) bd.models
    endpoints := alUpsert endpoint zeroEP (fun e =>
      { requests := e.requests + d.dReq
        tokens := e.tokens + d.dTok
        cost := e.cost + d.dCost
        models := alUpsert modelName zeroEpME (addEpME d) e.models }) bd.endpoints }

structure GranState where
  incRequests : ℤ
  incTokens : ℤ
  incCost : ℚ
  bd : Breakdown

/-- Body of the granular-delta loop (collector.ts lines 236 to 327): restart
substitution is applied by keyDelta, then the false-start filter skips the
key and subtracts its deltas from the coarse increments, else the key is
folded into the breakdown when it has positive requests or cost. -/
def granStep (prevMap currMap : List ((String × String) × ModelUsage))
    (st : GranState) (k : String × String) : GranState :=
  let d := keyDelta prevMap currMap k
  let cCost := getCost currMap k
  if 10 < d.dCost ∧ |d.dCost - cCost| < 1/10 then
    { st with
        incRequests := st.incRequests - d.dReq
        incTokens := st.incTokens - d.dTok
        incCost := st.incCost - d.dCost }
  else if 0 < d.dReq ∨ 0 < d.dCost then
    { st with bd := bumpBreakdown k.1 k.2 d st.bd }
  else st

def granularFold (prevMap currMap : List ((String × String) × ModelUsage))
    (st : GranState) (keys : List (String × String)) : GranState :=
  keys.foldl (granStep prevMap currMap) st

def recordDelta (r : ModelUsage) : Delta5 :=
  ⟨r.request_count, r.total_tokens, r.estimated_cost_usd, r.input_tokens, r.output_tokens⟩

/-- First-snapshot branch (collector.ts lines 328 to 378): every current
record is folded into the breakdown unconditionally. -/
def firstSnapshotBreakdown (recs : List ModelUsage) : Breakdown :=
  recs.foldl (fun bd r => bumpBreakdown r.model_name (epOr r.api_endpoint) (recordDelta r) bd)
    emptyBreakdown

def reqSumM (l : List (String × ModelEntry)) : ℤ := (l.map (fun p => p.2.requests)).sum

def tokSumM (l : List (String × ModelEntry)) : ℤ := (l.map (fun p => p.2.tokens)).sum

def costSumM (l : List (String × ModelEntry)) : ℚ := (l.map (fun p => p.2.cost)).sum

structure IncState where
  incRequests : ℤ
  incSuccess : ℤ
  incFailure : ℤ
  incTokens : ℤ
  incCost : ℚ

/-- Coarse global delta with upstream-restart detection
(collector.ts lines 179 to 205). -/
def coarseDelta (prevSnap : Option SnapRow) (curReq curSuc curFail curTok : ℤ)
    (cumulativeCost totalCost : ℚ) : IncState :=
  match prevSnap with
  | some p =>
    if curReq - p.total_requests < 0 ∨ curTok - p.total_tokens < 0 then
      ⟨curReq, curSuc, curFail, curTok, totalCost⟩
    else
      ⟨curReq - p.total_requests, curSuc - p.success_count, curFail - p.failure_count,
       curTok - p.total_tokens, cumulativeCost - p.cumulative_cost_usd⟩
  | none => ⟨curReq, curSuc, curFail, curTok, totalCost⟩

/-- Addition of a delta model entry into a stored model entry, used by the
merge step (collector.ts lines 433 to 441). -/
def mergeMEntry (src e : ModelEntry) : ModelEntry :=
  ⟨e.requests + src.requests, e.tokens + src.tokens, e.cost + src.cost,
   e.input_tokens + src.input_tokens, e.output_tokens + src.output_tokens⟩

/-- Merging the models part of a breakdown delta into the stored breakdown
(collector.ts lines 423 to 442). -/
def mergeModels (existing delta : List (String × ModelEntry)) : List (String × ModelEntry) :=
  delta.foldl (fun ex p => alUpsert p.1 zeroME (mergeMEntry p.2) ex) existing

/-- Merging the endpoints part of a breakdown delta
(collector.ts lines 444 to 468). -/
def mergeEndpoints (existing delta : List (String × EndpointEntry)) :
    List (String × EndpointEntry) :=
  delta.foldl (fun ex p => alUpsert p.1 zeroEP
    (fun e =>
      { requests := e.requests + p.2.requests
        tokens := e.tokens + p.2.tokens
        cost := e.cost + p.2.cost
        models := p.2.models.foldl (fun ms q => alUpsert q.1 zeroEpME
          (fun n => ⟨n.requests + q.2.requests, n.tokens + q.2.tokens, n.cost + q.2.cost⟩) ms)
          e.models }) ex)
    existing

/-- Final merge-and-write step of calculateDailyDelta (collector.ts lines
413 to 504): deep-merge the breakdown delta into the stored breakdown,
recompute the top-level totals from the merged models map when positive,
else fall back to adding the increment to the stored total. -/
def finalizeDaily (inc1 : IncState) (bdd : Breakdown) (existingDaily : Option DailyRow) :
    DailyRow :=
  let exBd := match existingDaily with | some e => e.breakdown | none => emptyBreakdown
  let merged : Breakdown := ⟨mergeModels exBd.models bdd.models,
                             mergeEndpoints exBd.endpoints bdd.endpoints⟩
  let rSum := reqSumM merged.models
  let tSum := tokSumM merged.models
  let cSum := costSumM merged.models
  let exReq : ℤ := match existingDaily with | some e => e.total_requests | none => 0
  let exSuc : ℤ := match existingDaily with | some e => e.success_count | none => 0
  let exFail : ℤ := match existingDaily with | some e => e.failure_count | none => 0
  let exTok : ℤ := match existingDaily with | some e => e.total_tokens | none => 0
  let exCost : ℚ := match existingDaily with | some e => e.estimated_cost_usd | none => 0
  { total_requests := if 0 < rSum then rSum else exReq + inc1.incRequests
    success_count := exSuc + inc1.incSuccess
    failure_count := exFail + inc1.incFailure
    total_tokens := if 0 < tSum then tSum else exTok + inc1.incTokens
    estimated_cost_usd := if 0 < cSum then cSum else exCost + inc1.incCost
    breakdown := merged }

/-- Increment and breakdown delta of the pass (steps 3 to 6 of the Delta
Engine): the coarse delta, then, when a previous snapshot exists, the
granular loop followed by the success and failure scaling and the override
of cost, tokens and requests by the breakdown sums. -/
def deltaOfPass (prevSnap : Option SnapRow) (prevRecords currRecords : List ModelUsage)
    (curReq curSuc curFail curTok : ℤ) (cumulativeCost totalCost : ℚ) :
    IncState × Breakdown :=
  let inc0 := coarseDelta prevSnap curReq curSuc curFail curTok cumulativeCost totalCost
  match prevSnap with
  | some _ =>
    let prevMap := buildKeyMap prevRecords
    let currMap := buildKeyMap currRecords
    let allKeys := dedupF (prevMap.map (fun p => p.1) ++ currMap.map (fun p => p.1))
    let g := granularFold prevMap currMap
      ⟨inc0.incRequests, inc0.incTokens, inc0.incCost, emptyBreakdown⟩ allKeys
    let safeR := reqSumM g.bd.models
    let safeT := tokSumM g.bd.models
    let safeC := costSumM g.bd.models
    let sf :=
      if 0 < g.incRequests ∧ (safeR : ℚ) / (g.incRequests : ℚ) < 99/100 then
        (⌊(inc0.incSuccess : ℚ) * ((safeR : ℚ) / (g.incRequests : ℚ))⌋,
         ⌊(inc0.incFailure : ℚ) * ((safeR : ℚ) / (g.incRequests : ℚ))⌋)
      else (inc0.incSuccess, inc0.incFailure)
    ((⟨safeR, sf.1, sf.2, safeT, safeC⟩ : IncState), g.bd)
  | none => (inc0, firstSnapshotBreakdown currRecords)

/-- The whole calculateDailyDelta pass (collector.ts lines 155 to 509),
as a pure function of the previous snapshot, its records, the freshly
built current records, the current global counters and the stored daily
row for today. -/
def calculateDailyDelta (prevSnap : Option SnapRow) (prevRecords currRecords : List ModelUsage)
    (curReq curSuc curFail curTok : ℤ) (cumulativeCost totalCost : ℚ)
    (existingDaily : Option DailyRow) : DailyRow :=
  let step2 := deltaOfPass prevSnap prevRecords currRecords curReq curSuc curFail curTok
    cumulativeCost totalCost
  finalizeDaily step2.1 step2.2 existingDaily

/-- storeUsageData (collector.ts lines 54 to 153) as a pure function: the
previous snapshot and its records, and the existing daily row, stand for
the database reads; the returned pair is the snapshot row and daily row
written. -/
def storeUsageData (usage : UpstreamUsage) (pricing : List (String × ModelPricing))
    (prevSnap : Option SnapRow) (prevRecords : List ModelUsage)
    (existingDaily : Option DailyRow) : SnapRow × DailyRow :=
  let records := buildModelRecords usage pricing
  let totalCost := (records.map (·.estimated_cost_usd)).sum
  let lastCostTotal := (prevSnap.map (fun s => s.cumulative_cost_usd)).getD 0
  let cumulativeCost := lastCostTotal + totalCost
  let snap : SnapRow := ⟨usage.total_requests, usage.success_count, usage.failure_count,
                         usage.total_tokens, cumulativeCost⟩
  let daily := calculateDailyDelta prevSnap prevRecords records usage.total_requests
    usage.success_count usage.failure_count usage.total_tokens cumulativeCost totalCost
    existingDaily
  (snap, daily)

/-! Rate-limit reconciler (class RateLimiter in src/src/data-api.ts).
Timestamps are integer seconds; the source divides millisecond
differences by 1000 before comparing against the thresholds below. -/

def GAP_THRESHOLD_SECONDS : ℤ := 1800

def FALSE_START_TOKEN_THRESHOLD : ℤ := 100000

structure MURow where
  model_name : String
  total_tokens : ℤ
  request_count : ℤ
  created_at : ℤ

structure SnapEntry where
  total_tokens : ℤ
  request_count : ℤ
deriving DecidableEq

structure UsageCalculation where
  total_tokens : ℤ
  request_count : ℤ

/-- SQLite `LIKE '%pattern%'` match used by getModelUsageByPattern
(db.ts lines 518 to 551); LIKE is ASCII-case-insensitive. -/
def likeMatch (pat name : String) : Bool :=
  strIncludes (strLower name) (strLower pat)

def matchedRows (rows : List MURow) (pat : String) : List MURow :=
  rows.filter (fun r => likeMatch pat r.model_name)

def maxTime : List ℤ → Option ℤ
  | [] => none
  | t :: ts => match maxTime ts with | none => some t | some m => some (max t m)

def minTime : List ℤ → Option ℤ
  | [] => none
  | t :: ts => match minTime ts with | none => some t | some m => some (min t m)

/-- Timestamp of the most recent row matching the pattern
(the DESC LIMIT 1 query of calculateUsage). -/
def latestTime (rows : List MURow) (pat : String) : Option ℤ :=
  maxTime ((matchedRows rows pat).map (fun r => r.created_at))

/-- Timestamp of the earliest matching row at or after the window start
(the ASC LIMIT 1 query with sinceTime). -/
def firstInnerTime (rows : List MURow) (pat : String) (since : ℤ) : Option ℤ :=
  minTime (((matchedRows rows pat).filter (fun r => since ≤ r.created_at)).map
    (fun r => r.created_at))

/-- Timestamp of the latest matching row strictly before the window start
(the DESC LIMIT 1 query with beforeTime). -/
def baselineTimeF (rows : List MURow) (pat : String) (since : ℤ) : Option ℤ :=
  maxTime (((matchedRows rows pat).filter (fun r => r.created_at < since)).map
    (fun r => r.created_at))

/-- buildSnapshotMap (data-api.ts lines 646 to 665): aggregate matching rows
captured exactly at the given time into a model-keyed map. -/
def buildSnapshotMap (rows : List MURow) (pat : String) (snapshotTime : ℤ) :
    List (String × SnapEntry) :=
  (matchedRows rows pat).foldl
    (fun m r =>
      if r.created_at = snapshotTime then
        alUpsert r.model_name ⟨0, 0⟩
          (fun e => ⟨e.total_tokens + r.total_tokens, e.request_count + r.request_count⟩) m
      else m)
    []

/-- interpolateSnapshotMap (data-api.ts lines 667 to 701); JS Math.round is
Mathlib round, the floor of x plus one half. -/
def interpolateSnapshotMap (baselineMap firstInnerMap : List (String × SnapEntry)) (r : ℚ) :
    List (String × SnapEntry) :=
  let allModels := dedupF (baselineMap.map (fun p => p.1) ++ firstInnerMap.map (fun p => p.1))
  allModels.map (fun mName =>
    let baselineRec := (alFind mName baselineMap).getD ⟨0, 0⟩
    let innerRec := (alFind mName firstInnerMap).getD baselineRec
    (mName,
     ⟨round ((baselineRec.total_tokens : ℚ) +
        r * ((innerRec.total_tokens : ℚ) - (baselineRec.total_tokens : ℚ))),
      round ((baselineRec.request_count : ℚ) +
        r * ((innerRec.request_count : ℚ) - (baselineRec.request_count : ℚ)))⟩))

/-- Per-model body of the delta loop in calculateDeltaFromSnapshots
(data-api.ts lines 724 to 770): restart substitution, false-start skip,
then accumulation of the clamped deltas. -/
def calcDeltaStep (currentMap baselineMap : List (String × SnapEntry))
    (acc : ℤ × ℤ) (mName : String) : ℤ × ℤ :=
  let currentRec := (alFind mName currentMap).getD ⟨0, 0⟩
  let baselineRec := (alFind mName baselineMap).getD ⟨0, 0⟩
  let currentTokens := currentRec.total_tokens
  let currentReqs := currentRec.request_count
  let baselineTokens := baselineRec.total_tokens
  let baselineReqs := baselineRec.request_count
  let d : ℤ × ℤ :=
    if currentTokens - baselineTokens < 0 ∨ currentReqs - baselineReqs < 0 then
      (currentTokens, currentReqs)
    else (currentTokens - baselineTokens, currentReqs - baselineReqs)
  if (alFind mName baselineMap = none ∨ (baselineTokens = 0 ∧ baselineReqs = 0)) ∧
      FALSE_START_TOKEN_THRESHOLD < d.1 ∧
      (baselineTokens = 0 ∨ |d.1 - currentTokens| < 100) then acc
  else (acc.1 + max 0 d.1, acc.2 + max 0 d.2)

/-- calculateDeltaFromSnapshots (data-api.ts lines 703 to 776). -/
def calculateDeltaFromSnapshots (rows : List MURow) (pat : String)
    (latestT baselineT : ℤ) (baselineOverride : Option (List (String × SnapEntry))) :
    UsageCalculation :=
  let currentMap := buildSnapshotMap rows pat latestT
  let baselineMap := baselineOverride.getD (buildSnapshotMap rows pat baselineT)
  let allModels := dedupF (currentMap.map (fun p => p.1) ++ baselineMap.map (fun p => p.1))
  let t := allModels.foldl (calcDeltaStep currentMap baselineMap) (0, 0)
  ⟨t.1, t.2⟩

/-- calculateUsage (data-api.ts lines 506 to 644). -/
def calculateUsage (rows : List MURow) (pat : String) (since : ℤ) : UsageCalculation :=
  match latestTime rows pat with
  | none => ⟨0, 0⟩
  | some latestT =>
    if latestT < since then ⟨0, 0⟩
    else
      match baselineTimeF rows pat since with
      | none =>
        match firstInnerTime rows pat since with
        | none => ⟨0, 0⟩
        | some fi => calculateDeltaFromSnapshots rows pat latestT fi none
      | some b =>
        match firstInnerTime rows pat since with
        | some fi =>
          let gapSeconds := fi - b
          if GAP_THRESHOLD_SECONDS < gapSeconds then
            let windowSpan : ℚ := if 0 < gapSeconds then (gapSeconds : ℚ) else 1
            let frac : ℚ := max 0 (min 1 (((since - b : ℤ) : ℚ) / windowSpan))
            let baselineMap := buildSnapshotMap rows pat b
            let firstInnerMap := buildSnapshotMap rows pat fi
            let interpolatedMap := interpolateSnapshotMap baselineMap firstInnerMap frac
            calculateDeltaFromSnapshots rows pat latestT b (some interpolatedMap)
          else calculateDeltaFromSnapshots rows pat latestT b none
        | none => calculateDeltaFromSnapshots rows pat latestT b none

/-! Window computation of processConfig (data-api.ts lines 428 to 485),
in seconds, assuming the JS runtime clock is UTC so that setHours and
getDay act on the offset-shifted value directly. -/

/-- Most recent local midnight: setHours(0,0,0,0) on the shifted clock. -/
def localMidnight (t : ℤ) : ℤ := t - t % 86400

/-- JS Date.prototype.getDay of a midnight value: day 0 of the epoch was a
Thursday, and getDay returns 0 for Sunday. -/
def jsGetDay (mid : ℤ) : ℤ := (mid / 86400 + 4) % 7

/-- Weekly window start (data-api.ts lines 439 to 447): most recent Monday
00:00 local, Sunday counting as 6 days since Monday. -/
def weeklyWindowStart (t : ℤ) : ℤ :=
  let startOfToday := localMidnight t
  let wd := jsGetDay startOfToday
  let daysSinceMonday := if wd = 0 then 6 else wd - 1
  startOfToday - daysSinceMonday * 86400

inductive ResetStrategy
  | daily
  | weekly
  | rolling

/-- Natural window start and next reset per strategy
(data-api.ts lines 434 to 454). -/
def computeWindow : ResetStrategy → ℤ → ℤ → ℤ × ℤ
  | .daily, now, _ => (localMidnight now, localMidnight now + 86400)
  | .weekly, now, _ => (weeklyWindowStart now, weeklyWindowStart now + 7 * 86400)
  | .rolling, now, windowMinutes => (now - windowMinutes * 60, now + 60)

/-- Anchor adjustment (data-api.ts lines 462 to 485): an anchor strictly
later than the natural start replaces it; a missing or unparseable anchor
(new Date of an invalid string compares false) leaves the natural start. -/
def effectiveWindowStart (anchor : Option ℤ) (calculatedWindowStart : ℤ) : ℤ :=
  match anchor with
  | some a => if calculatedWindowStart < a then a else calculatedWindowStart
  | none => calculatedWindowStart

/-! Status write and manual reset. -/

/-- Status label, modelled structurally; the source renders these with
toLocaleString into strings such as "0/10,000 Tokens". -/
inductive LabelKind
  | tokens (used limit : ℤ)
  | requests (used limit : ℤ)
  | usedBoth (usedTokens usedRequests : ℤ)
  | unlimited
  | na

structure RateLimitStatus where
  config_id : ℤ
  remaining_tokens : ℤ
  remaining_requests : ℤ
  used_tokens : ℤ
  used_requests : ℤ
  percentage : ℤ
  status_label : LabelKind
  window_start : ℤ
  last_updated : ℤ
  next_reset : Option ℤ

/-- updateStatus (data-api.ts lines 778 to 831): token limit preferred,
percentage floored and clamped to the range 0 to 100. -/
def updateStatus (configId usedTokens usedRequests : ℤ) (windowStart : ℤ) (now : ℤ)
    (nextReset : Option ℤ) (tokenLimit requestLimit : Option ℤ) : RateLimitStatus :=
  let sel : ℤ × ℤ × ℤ × LabelKind :=
    match tokenLimit with
    | some t =>
      if 0 < t then
        (⌊((max 0 (t - usedTokens) : ℤ) : ℚ) / (t : ℚ) * 100⌋, max 0 (t - usedTokens), 0,
         LabelKind.tokens usedTokens t)
      else
        match requestLimit with
        | some r =>
          if 0 < r then
            (⌊((max 0 (r - usedRequests) : ℤ) : ℚ) / (r : ℚ) * 100⌋, 0, max 0 (r - usedRequests),
             LabelKind.requests usedRequests r)
          else (100, 0, 0, LabelKind.usedBoth usedTokens usedRequests)
        | none => (100, 0, 0, LabelKind.usedBoth usedTokens usedRequests)
    | none =>
      match requestLimit with
      | some r =>
        if 0 < r then
          (⌊((max 0 (r - usedRequests) : ℤ) : ℚ) / (r : ℚ) * 100⌋, 0, max 0 (r - usedRequests),
           LabelKind.requests usedRequests r)
        else (100, 0, 0, LabelKind.usedBoth usedTokens usedRequests)
      | none => (100, 0, 0, LabelKind.usedBoth usedTokens usedRequests)
  ⟨configId, sel.2.1, sel.2.2.1, usedTokens, usedRequests,
   max 0 (min 100 sel.1), sel.2.2.2, windowStart, now, nextReset⟩

/-- One Reconciler iteration for a config (processConfig, data-api.ts lines
408 to 504): compute the natural window, apply the reset anchor, calculate
usage in the window, and build the status row that is upserted. -/
def processConfig (configId : ℤ) (modelPattern : String) (windowMinutes : ℤ)
    (resetStrategy : ResetStrategy) (tokenLimit requestLimit : Option ℤ)
    (resetAnchor : Option ℤ) (rows : List MURow) (now : ℤ) : RateLimitStatus :=
  let wnr := computeWindow resetStrategy now windowMinutes
  let windowStart := effectiveWindowStart resetAnchor wnr.1
  let usage := calculateUsage rows modelPattern windowStart
  updateStatus configId usage.total_tokens usage.request_count windowStart now (some wnr.2)
    tokenLimit requestLimit

structure RLConfig where
  model_pattern : String
  window_minutes : ℤ
  reset_strategy : ResetStrategy
  token_limit : Option ℤ
  request_limit : Option ℤ
  reset_anchor : Option ℤ

structure ResetResult where
  success : Bool
  message : String
  newStatusPercentage : Option ℤ
  newStatusLabel : Option LabelKind
  writtenStatus : Option RateLimitStatus
  writtenAnchor : Option ℤ

/-- Label written by resetLimit (data-api.ts lines 851 to 861): zero used
against the token limit when positive, else the request limit, else
unlimited. -/
def resetLabel (config : RLConfig) : LabelKind :=
  if 0 < config.token_limit.getD 0 then LabelKind.tokens 0 (config.token_limit.getD 0)
  else if 0 < config.request_limit.getD 0 then
    LabelKind.requests 0 (config.request_limit.getD 0)
  else LabelKind.unlimited

/-- resetLimit (data-api.ts lines 833 to 903).  The configs list stands for
the rate_limit_configs table keyed by id; persistOk models whether the two
writes succeed (an exception lands in the catch branch). -/
def resetLimit (configs : List (ℤ × RLConfig)) (configId : ℤ) (persistOk : Bool) (now : ℤ) :
    ResetResult :=
  match alFind configId configs with
  | none =>
    ⟨false, "Configuration with id " ++ toString configId ++ " not found.",
     none, none, none, none⟩
  | some config =>
    if persistOk then
      let statusData : RateLimitStatus :=
        ⟨configId, config.token_limit.getD 0, config.request_limit.getD 0, 0, 0, 100,
         resetLabel config, now, now, none⟩
      ⟨true, "Successfully reset rate limit for config id " ++ toString configId ++ ".",
       some 100, some (resetLabel config), some statusData, some now⟩
    else ⟨false, "An internal error occurred.", none, none, none, none⟩

/-! HTTP reset route (server.ts lines 130 to 158). -/

def hexVal (c : Char) : Option ℕ :=
  if c.isDigit then some (c.toNat - 48)
  else if 'a' ≤ c ∧ c ≤ 'f' then some (c.toNat - 87)
  else if 'A' ≤ c ∧ c ≤ 'F' then some (c.toNat - 55)
  else none

def digitsToNat (base : ℕ) (cs : List Char) : ℕ :=
  cs.foldl (fun n c => n * base + (hexVal c).getD 0) 0

/-- JS parseInt with radix 10: trim, optional sign, an optional 0x prefix
switching to hexadecimal, then the longest digit run; none when no digit
is found (NaN). -/
def jsParseInt (s : String) : Option ℤ :=
  let t := s.data.dropWhile Char.isWhitespace
  let su : ℤ × List Char :=
    match t with
    | '-' :: r => (-1, r)
    | '+' :: r => (1, r)
    | r => (1, r)
  match su.2 with
  | '0' :: 'x' :: r =>
    let ds := r.takeWhile (fun c => (hexVal c).isSome)
    if ds = [] then none else some (su.1 * (digitsToNat 16 ds : ℤ))
  | '0' :: 'X' :: r =>
    let ds := r.takeWhile (fun c => (hexVal c).isSome)
    if ds = [] then none else some (su.1 * (digitsToNat 16 ds : ℤ))
  | u =>
    let ds := u.takeWhile (fun c => c.isDigit)
    if ds = [] then none else some (su.1 * (digitsToNat 10 ds : ℤ))

structure HttpReply where
  code : ℕ
  newStatusPercentage : Option ℤ

/-- POST /api/collector/reset/:config_id handler (server.ts lines 130 to
158): parseInt the path parameter, 400 on NaN, else route on the reset
result, mapping a "not found" message to 404 and other failures to 500. -/
def handleReset (param : String) (configs : List (ℤ × RLConfig)) (persistOk : Bool)
    (now : ℤ) : HttpReply :=
  match jsParseInt param with
  | none => ⟨400, none⟩
  | some configId =>
    let result := resetLimit configs configId persistOk now
    if result.success then ⟨200, result.newStatusPercentage⟩
    else if strIncludes result.message "not found" then ⟨404, none⟩
    else ⟨500, none⟩

/-! Scheduler and manual trigger (class Scheduler in src/unnamed/part_002
and the trigger route of server.ts lines 112 to 129), as an event system
counting in-flight sync passes. -/

inductive SchedEvent
  | tick
  | trigger
  | finish

/-- Transition on the number of in-flight passes: a setInterval tick runs
the task unconditionally (part_002 lines 25 to 31), the manual trigger
calls runFullSync without any in-flight check before answering
(server.ts lines 116 to 127), and a completing pass retires. -/
def schedStep (inFlight : ℕ) : SchedEvent → ℕ
  | .tick => inFlight + 1
  | .trigger => inFlight + 1
  | .finish => inFlight - 1

def schedRun (events : List SchedEvent) : ℕ :=
  events.foldl schedStep 0

/-- The manual trigger always answers 202 immediately
(server.ts lines 121 to 127). -/
def triggerStatusCode : ℕ := 202

/-! General lemmas about the association-list helpers. -/

theorem alFind_alUpsert_ne {κ α : Type} [DecidableEq κ] {k k' : κ} (init : α) (f : α → α)
    (l : List (κ × α)) (h : k ≠ k') : alFind k (alUpsert k' init f l) = alFind k l := by
  have h' : ¬ (k' = k) := fun hh => h hh.symm
  induction l with
  | nil => simp [alUpsert, alFind, h']
  | cons p t ih =>
    obtain ⟨k2, v⟩ := p
    by_cases h2 : k2 = k'
    · subst h2
      simp [alUpsert, alFind, h']
    · simp only [alUpsert, if_neg h2, alFind]
      by_cases h3 : k2 = k
      · simp [h3]
      · simp [h3, ih]

theorem alFind_mem {κ α : Type} [DecidableEq κ] {k : κ} {v : α} {l : List (κ × α)}
    (h : alFind k l = some v) : (k, v) ∈ l := by
  induction l with
  | nil => simp [alFind] at h
  | cons p t ih =>
    obtain ⟨k2, w⟩ := p
    by_cases h2 : k2 = k
    · subst h2
      simp only [alFind, if_pos rfl, ite_true, Option.some.injEq] at h
      subst h
      exact List.mem_cons_self _ _
    · simp only [alFind, if_neg h2] at h
      exact List.mem_cons_of_mem _ (ih h)

theorem alFind_isSome_of_mem_keys {κ α : Type} [DecidableEq κ] {k : κ} {l : List (κ × α)}
    (h : k ∈ l.map (fun p => p.1)) : (alFind k l).isSome := by
  induction l with
  | nil => simp at h
  | cons p t ih =>
    obtain ⟨k2, w⟩ := p
    by_cases h2 : k2 = k
    · subst h2
      simp [alFind]
    · simp only [List.map_cons, List.mem_cons] at h
      rcases h with h | h
      · exact absurd h.symm h2
      · simp only [alFind, if_neg h2]
        exact ih h

theorem alFind_eq_none_of_not_mem_keys {κ α : Type} [DecidableEq κ] {k : κ} {l : List (κ × α)}
    (h : k ∉ l.map (fun p => p.1)) : alFind k l = none := by
  induction l with
  | nil => rfl
  | cons p t ih =>
    obtain ⟨k2, w⟩ := p
    simp only [List.map_cons, List.mem_cons] at h
    push_neg at h
    have h1 : ¬ (k2 = k) := fun h2 => h.1 h2.symm
    simp only [alFind, if_neg h1]
    exact ih h.2

/-- Summing a projection over an upserted association list: if the update adds
c to the projection and the initial entry projects to zero, the total sum
grows by exactly c, whether or not the key was present. -/
theorem sum_map_alUpsert {κ α M : Type} [DecidableEq κ] [AddCommMonoid M]
    (g : α → M) (k : κ) (init : α) (f : α → α) (c : M)
    (hf : ∀ v, g (f v) = g v + c) (h0 : g init = 0) (l : List (κ × α)) :
    ((alUpsert k init f l).map (fun p => g p.2)).sum = (l.map (fun p => g p.2)).sum + c := by
  induction l with
  | nil => simp [alUpsert, hf, h0]
  | cons p t ih =>
    obtain ⟨k2, v⟩ := p
    by_cases h2 : k2 = k
    · subst h2
      simp only [alUpsert, if_pos rfl, ite_true, List.map_cons, List.sum_cons, hf]
      exact add_right_comm _ _ _
    · simp only [alUpsert, if_neg h2, List.map_cons, List.sum_cons, ih]
      exact (add_assoc _ _ _).symm

theorem mem_dedupF_iff {α : Type} [DecidableEq α] {a : α} {l : List α} :
    a ∈ dedupF l ↔ a ∈ l := by
  have key : ∀ (l : List α) (acc : List α),
      a ∈ l.foldl (fun acc b => if b ∈ acc then acc else acc ++ [b]) acc ↔ a ∈ acc ∨ a ∈ l := by
    intro l
    induction l with
    | nil => simp
    | cons b t ih =>
      intro acc
      by_cases hb : b ∈ acc
      · simp only [List.foldl_cons, if_pos hb, ih, List.mem_cons]
        constructor
        · rintro (h | h)
          · exact Or.inl h
          · exact Or.inr (Or.inr h)
        · rintro (h | h | h)
          · exact Or.inl h
          · exact Or.inl (h ▸ hb)
          · exact Or.inr h
      · simp only [List.foldl_cons, if_neg hb, ih, List.mem_append, List.mem_singleton,
          List.mem_cons]
        tauto
  simpa using key l []

/-! Claim C7: window computation characterization. -/

/-- Claim C7.  For every Reconciler pass over the shifted local clock: a
daily config gets the most recent local midnight as window start and a next
reset 24 hours later; a weekly config gets the most recent Monday 00:00
local (a Monday being weekday 1 in the JS getDay convention) and a next
reset 7 days later; a rolling config gets now minus window_minutes and a
next reset one minute from now. -/
theorem C7_window_computation (now wm : ℤ) :
    ((computeWindow ResetStrategy.daily now wm).1 % 86400 = 0 ∧
     (computeWindow ResetStrategy.daily now wm).1 ≤ now ∧
     now - (computeWindow ResetStrategy.daily now wm).1 < 86400 ∧
     (computeWindow ResetStrategy.daily now wm).2 =
       (computeWindow ResetStrategy.daily now wm).1 + 86400) ∧
    ((computeWindow ResetStrategy.weekly now wm).1 % 86400 = 0 ∧
     ((computeWindow ResetStrategy.weekly now wm).1 / 86400 + 4) % 7 = 1 ∧
     (computeWindow ResetStrategy.weekly now wm).1 ≤ now ∧
     now - (computeWindow ResetStrategy.weekly now wm).1 < 7 * 86400 ∧
     (computeWindow ResetStrategy.weekly now wm).2 =
       (computeWindow ResetStrategy.weekly now wm).1 + 7 * 86400) ∧
    ((computeWindow ResetStrategy.rolling now wm).1 = now - wm * 60 ∧
     (computeWindow ResetStrategy.rolling now wm).2 = now + 60) := by
  refine ⟨⟨?_, ?_, ?_, ?_⟩, ⟨?_, ?_, ?_, ?_, ?_⟩, ?_, ?_⟩ <;>
    simp only [computeWindow, weeklyWindowStart, localMidnight, jsGetDay] <;>
    first
      | rfl
      | omega

/-! Claim C8: scheduler pass coalescing. -/

/-- Claim C8, counterexample.  The claim asserts at most one sync pass is
ever in flight.  The trace of a scheduled tick followed by a manual
trigger, with neither pass yet finished, reaches two in-flight passes:
the tick handler and the trigger handler both start the task without any
in-flight check. -/
theorem C8_counterexample_two_in_flight :
    schedRun [SchedEvent.tick, SchedEvent.trigger] = 2 := by decide

/-- Claim C8, amended.  A manual trigger always answers 202 immediately, but
it unconditionally starts a new pass even while another is in flight, and a
scheduled tick does the same: passes are not coalesced, and ticks fire on a
fixed wall-clock interval regardless of pass completion. -/
theorem C8_amended_no_coalescing :
    triggerStatusCode = 202 ∧
    (∀ inFlight : ℕ, schedStep inFlight SchedEvent.trigger = inFlight + 1) ∧
    (∀ inFlight : ℕ, schedStep inFlight SchedEvent.tick = inFlight + 1) :=
  ⟨rfl, fun _ => rfl, fun _ => rfl⟩

/-! Claim C5: gap interpolation, spec scenario S5. -/

/-- Rows of the S5 scenario: pattern "gpt", 300-minute rolling window
starting at time 0; a baseline row 240 minutes before the window start
with 10000 cumulative tokens, a first inner row 10 minutes after it with
10100, and the latest row with 10200. -/
def s5rows : List MURow :=
  [⟨"gpt-4", 10000, 0, -14400⟩, ⟨"gpt-4", 10100, 0, 600⟩, ⟨"gpt-4", 10200, 0, 3600⟩]

theorem likeMatch_gpt : likeMatch "gpt" "gpt-4" = true := by decide

/-- Claim C5.  With a 250-minute gap between baseline and first inner row
(above the 30-minute threshold), the clipped interpolation fraction is
240/250, the synthetic baseline interpolated at the window start carries
10096 tokens, and the computed usage for the S5 scenario is 104 tokens. -/
theorem C5_gap_interpolation :
    max (0 : ℚ) (min 1 (((0 : ℤ) - (-14400 : ℤ) : ℤ) / ((15000 : ℤ) : ℚ))) = 24/25 ∧
    interpolateSnapshotMap [("gpt-4", ⟨10000, 0⟩)] [("gpt-4", ⟨10100, 0⟩)] (24/25) =
      [("gpt-4", ⟨10096, 0⟩)] ∧
    calculateUsage s5rows "gpt" 0 = ⟨104, 0⟩ := by
  refine ⟨by norm_num, ?_, ?_⟩
  · norm_num [interpolateSnapshotMap, dedupF, alFind, round_eq]
  · norm_num [calculateUsage, latestTime, firstInnerTime, baselineTimeF, maxTime, minTime,
      matchedRows, likeMatch_gpt, s5rows,
      buildSnapshotMap, interpolateSnapshotMap, calculateDeltaFromSnapshots, calcDeltaStep,
      alFind, alUpsert, dedupF, GAP_THRESHOLD_SECONDS, FALSE_START_TOKEN_THRESHOLD, round_eq]

/-! Claim C1: self-healing sums of the daily aggregate. -/

/-- Claim C1, counterexample.  A first-ever snapshot whose report carries
global counters (50 tokens) but an empty per-model apis object completes a
Delta Engine pass whose daily row stores total_tokens = 50 while the
breakdown model sum is 0: the totals fall back to adding the coarse delta
when the breakdown sum is not positive, so the claimed equality fails. -/
theorem C1_counterexample_empty_breakdown :
    (storeUsageData ⟨5, 5, 0, 50, []⟩ [] none [] none).2.total_tokens = 50 ∧
    tokSumM (storeUsageData ⟨5, 5, 0, 50, []⟩ [] none [] none).2.breakdown.models = 0 ∧
    (storeUsageData ⟨5, 5, 0, 50, []⟩ [] none [] none).2.total_tokens ≠
      tokSumM (storeUsageData ⟨5, 5, 0, 50, []⟩ [] none [] none).2.breakdown.models := by
  norm_num [storeUsageData, buildModelRecords, calculateDailyDelta, deltaOfPass, coarseDelta,
    finalizeDaily, firstSnapshotBreakdown, emptyBreakdown, mergeModels, mergeEndpoints,
    tokSumM, reqSumM, costSumM]

/-- Claim C1, amended.  After every completed Delta Engine pass, whenever the
sum of a dimension (cost, tokens or requests) over breakdown.models of the
stored daily row is positive, the stored top-level total of that dimension
equals that sum exactly; when the sum is not positive the total instead
falls back to the previous total plus the pass increment. -/
theorem C1_amended_self_healing (prevSnap : Option SnapRow)
    (prevRecords currRecords : List ModelUsage) (curReq curSuc curFail curTok : ℤ)
    (cumulativeCost totalCost : ℚ) (existingDaily : Option DailyRow) :
    (0 < reqSumM (calculateDailyDelta prevSnap prevRecords currRecords curReq curSuc curFail
        curTok cumulativeCost totalCost existingDaily).breakdown.models →
      (calculateDailyDelta prevSnap prevRecords currRecords curReq curSuc curFail
        curTok cumulativeCost totalCost existingDaily).total_requests =
      reqSumM (calculateDailyDelta prevSnap prevRecords currRecords curReq curSuc curFail
        curTok cumulativeCost totalCost existingDaily).breakdown.models) ∧
    (0 < tokSumM (calculateDailyDelta prevSnap prevRecords currRecords curReq curSuc curFail
        curTok cumulativeCost totalCost existingDaily).breakdown.models →
      (calculateDailyDelta prevSnap prevRecords currRecords curReq curSuc curFail
        curTok cumulativeCost totalCost existingDaily).total_tokens =
      tokSumM (calculateDailyDelta prevSnap prevRecords currRecords curReq curSuc curFail
        curTok cumulativeCost totalCost existingDaily).breakdown.models) ∧
    (0 < costSumM (calculateDailyDelta prevSnap prevRecords currRecords curReq curSuc curFail
        curTok cumulativeCost totalCost existingDaily).breakdown.models →
      (calculateDailyDelta prevSnap prevRecords currRecords curReq curSuc curFail
        curTok cumulativeCost totalCost existingDaily).estimated_cost_usd =
      costSumM (calculateDailyDelta prevSnap prevRecords currRecords curReq curSuc curFail
        curTok cumulativeCost totalCost existingDaily).breakdown.models) := by
  have key : ∀ (i : IncState) (b : Breakdown) (e : Option DailyRow),
      (0 < reqSumM (finalizeDaily i b e).breakdown.models →
        (finalizeDaily i b e).total_requests = reqSumM (finalizeDaily i b e).breakdown.models) ∧
      (0 < tokSumM (finalizeDaily i b e).breakdown.models →
        (finalizeDaily i b e).total_tokens = tokSumM (finalizeDaily i b e).breakdown.models) ∧
      (0 < costSumM (finalizeDaily i b e).breakdown.models →
        (finalizeDaily i b e).estimated_cost_usd =
          costSumM (finalizeDaily i b e).breakdown.models) := by
    intro i b e
    simp only [finalizeDaily]
    refine ⟨fun h => ?_, fun h => ?_, fun h => ?_⟩ <;> rw [if_pos h]
  exact key _ _ _

/-- Witness for the amended claim C1 at a concrete pass with a nonempty
breakdown: the stored total equals the breakdown sum. -/
theorem C1_amended_witness :
    (calculateDailyDelta none [] [⟨"modelA", "chat", 1, 5, 5, 10, 1⟩] 1 1 0 10 1 1
      none).total_tokens =
    tokSumM (calculateDailyDelta none [] [⟨"modelA", "chat", 1, 5, 5, 10, 1⟩] 1 1 0 10 1 1
      none).breakdown.models :=
  (C1_amended_self_healing none [] [⟨"modelA", "chat", 1, 5, 5, 10, 1⟩] 1 1 0 10 1 1 none).2.1
    (by norm_num [calculateDailyDelta, deltaOfPass, coarseDelta, finalizeDaily,
      firstSnapshotBreakdown, bumpBreakdown, addME, zeroME, recordDelta, epOr,
      emptyBreakdown, mergeModels, mergeMEntry, mergeEndpoints, alUpsert, tokSumM])

/-! Claim C10: cumulative cost accounting. -/

theorem findPartial_mem {ml : String} {l : List (String × ModelPricing)} {p : ModelPricing}
    (h : findPartial ml l = some p) : ∃ k, (k, p) ∈ l := by
  induction l with
  | nil => simp [findPartial] at h
  | cons q t ih =>
    obtain ⟨k2, pr⟩ := q
    by_cases h1 : k2 = "_default"
    · simp only [findPartial, if_pos h1] at h
      obtain ⟨k, hk⟩ := ih h
      exact ⟨k, List.mem_cons_of_mem _ hk⟩
    · simp only [findPartial, if_neg h1] at h
      by_cases h2 : (strIncludes k2 ml || strIncludes ml k2) = true
      · rw [if_pos h2] at h
        obtain rfl := Option.some.inj h
        exact ⟨k2, List.mem_cons_self _ _⟩
      · rw [if_neg h2] at h
        obtain ⟨k, hk⟩ := ih h
        exact ⟨k, List.mem_cons_of_mem _ hk⟩

theorem findPricingForModel_nonneg {pricing : List (String × ModelPricing)} (mn : String)
    (hp : ∀ q ∈ pricing, 0 ≤ q.2.input ∧ 0 ≤ q.2.output) :
    0 ≤ (findPricingForModel mn pricing).input ∧
    0 ≤ (findPricingForModel mn pricing).output := by
  cases h1 : alFind (strLower mn) pricing with
  | some p =>
    have he : findPricingForModel mn pricing = p := by simp [findPricingForModel, h1]
    rw [he]
    exact hp _ (alFind_mem h1)
  | none =>
    cases h2 : findPartial (strLower mn) pricing with
    | some p =>
      have he : findPricingForModel mn pricing = p := by simp [findPricingForModel, h1, h2]
      rw [he]
      obtain ⟨k, hk⟩ := findPartial_mem h2
      exact hp _ hk
    | none =>
      cases h3 : alFind "_default" pricing with
      | some p =>
        have he : findPricingForModel mn pricing = p := by
          simp [findPricingForModel, h1, h2, h3]
        rw [he]
        exact hp _ (alFind_mem h3)
      | none =>
        have he : findPricingForModel mn pricing = ⟨15/100, 6/10⟩ := by
          simp [findPricingForModel, h1, h2, h3]
        rw [he]
        constructor <;> norm_num

theorem calculateCost_nonneg {it ot : ℤ} {p : ModelPricing} (hi : 0 ≤ it) (ho : 0 ≤ ot)
    (hpi : 0 ≤ p.input) (hpo : 0 ≤ p.output) : 0 ≤ calculateCost it ot p := by
  unfold calculateCost
  have h1 : (0 : ℚ) ≤ (it : ℚ) / 1000000 * p.input := by positivity
  have h2 : (0 : ℚ) ≤ (ot : ℚ) / 1000000 * p.output := by positivity
  linarith

theorem snapshotTotalCost_nonneg {usage : UpstreamUsage}
    {pricing : List (String × ModelPricing)}
    (hp : ∀ q ∈ pricing, 0 ≤ q.2.input ∧ 0 ≤ q.2.output)
    (hd : ∀ ep ∈ usage.apis, ∀ q ∈ ep.2, ∀ d2 ∈ q.2.details, 0 ≤ d2.1 ∧ 0 ≤ d2.2) :
    0 ≤ snapshotTotalCost usage pricing := by
  unfold snapshotTotalCost buildModelRecords
  apply List.sum_nonneg
  intro x hx
  rw [List.mem_map] at hx
  obtain ⟨r, hr2, rfl⟩ := hx
  rw [List.mem_flatten] at hr2
  obtain ⟨sub, hsub, hr⟩ := hr2
  rw [List.mem_map] at hsub
  obtain ⟨ep, hep, rfl⟩ := hsub
  rw [List.mem_map] at hr
  obtain ⟨q, hq, rfl⟩ := hr
  show 0 ≤ calculateCost ((q.2.details.map (·.1)).sum) ((q.2.details.map (·.2)).sum)
    (findPricingForModel q.1 pricing)
  apply calculateCost_nonneg
  · exact List.sum_nonneg (by
      intro y hy
      simp only [List.mem_map] at hy
      obtain ⟨d2, hd2, rfl⟩ := hy
      exact (hd ep hep q hq d2 hd2).1)
  · exact List.sum_nonneg (by
      intro y hy
      simp only [List.mem_map] at hy
      obtain ⟨d2, hd2, rfl⟩ := hy
      exact (hd ep hep q hq d2 hd2).2)
  · exact (findPricingForModel_nonneg _ hp).1
  · exact (findPricingForModel_nonneg _ hp).2

/-- Claim C10.  The stored snapshot's cumulative_cost_usd equals the previous
snapshot's cumulative cost plus the cost of the current report, and that
report cost is non-negative whenever the report's token counts and the
pricing rates are non-negative, so the cumulative cost never decreases from
one snapshot to the next even when the upstream counters roll back. -/
theorem C10_cumulative_cost_monotone (usage : UpstreamUsage)
    (pricing : List (String × ModelPricing)) (prevSnap : Option SnapRow)
    (prevRecords : List ModelUsage) (existingDaily : Option DailyRow) :
    (storeUsageData usage pricing prevSnap prevRecords existingDaily).1.cumulative_cost_usd =
      (prevSnap.map (fun s => s.cumulative_cost_usd)).getD 0 +
        snapshotTotalCost usage pricing ∧
    ((∀ q ∈ pricing, 0 ≤ q.2.input ∧ 0 ≤ q.2.output) →
     (∀ ep ∈ usage.apis, ∀ q ∈ ep.2, ∀ d2 ∈ q.2.details, 0 ≤ d2.1 ∧ 0 ≤ d2.2) →
     (prevSnap.map (fun s => s.cumulative_cost_usd)).getD 0 ≤
       (storeUsageData usage pricing prevSnap prevRecords existingDaily).1.cumulative_cost_usd) := by
  constructor
  · rfl
  · intro hp hd
    have h1 : (storeUsageData usage pricing prevSnap prevRecords
        existingDaily).1.cumulative_cost_usd =
        (prevSnap.map (fun s => s.cumulative_cost_usd)).getD 0 +
          snapshotTotalCost usage pricing := rfl
    rw [h1]
    have h2 := snapshotTotalCost_nonneg hp hd
    linarith

/-- Witness for claim C10 at a concrete report and a previous snapshot with
cumulative cost 7: the new cumulative cost is at least 7. -/
theorem C10_witness :
    ((some (⟨0, 0, 0, 0, 7⟩ : SnapRow)).map (fun s => s.cumulative_cost_usd)).getD 0 ≤
      (storeUsageData ⟨6, 6, 0, 60, [("chat", [("modelA", ⟨1, 10, [(5, 5)]⟩)])]⟩ []
        (some ⟨0, 0, 0, 0, 7⟩) [] none).1.cumulative_cost_usd :=
  (C10_cumulative_cost_monotone ⟨6, 6, 0, 60, [("chat", [("modelA", ⟨1, 10, [(5, 5)]⟩)])]⟩ []
      (some ⟨0, 0, 0, 0, 7⟩) [] none).2
    (by simp)
    (by
      intro ep hep q hq d2 hd2
      simp only [List.mem_cons, List.not_mem_nil, or_false] at hep
      subst hep
      simp only [List.mem_cons, List.not_mem_nil, or_false] at hq
      subst hq
      simp only [List.mem_cons, List.not_mem_nil, or_false] at hd2
      subst hd2
      norm_num)

/-! Sum lemmas for the breakdown maps. -/

theorem tokSumM_bump (mn ep : String) (d : Delta5) (bd : Breakdown) :
    tokSumM (bumpBreakdown mn ep d bd).models = tokSumM bd.models + d.dTok := by
  simp only [bumpBreakdown, tokSumM]
  exact sum_map_alUpsert (fun e => e.tokens) mn zeroME (addME d) d.dTok (fun _ => rfl) rfl
    bd.models

theorem reqSumM_bump (mn ep : String) (d : Delta5) (bd : Breakdown) :
    reqSumM (bumpBreakdown mn ep d bd).models = reqSumM bd.models + d.dReq := by
  simp only [bumpBreakdown, reqSumM]
  exact sum_map_alUpsert (fun e => e.requests) mn zeroME (addME d) d.dReq (fun _ => rfl) rfl
    bd.models

theorem costSumM_bump (mn ep : String) (d : Delta5) (bd : Breakdown) :
    costSumM (bumpBreakdown mn ep d bd).models = costSumM bd.models + d.dCost := by
  simp only [bumpBreakdown, costSumM]
  exact sum_map_alUpsert (fun e => e.cost) mn zeroME (addME d) d.dCost (fun _ => rfl) rfl
    bd.models

theorem tokSumM_mergeModels (ex dl : List (String × ModelEntry)) :
    tokSumM (mergeModels ex dl) = tokSumM ex + tokSumM dl := by
  induction dl generalizing ex with
  | nil => simp [mergeModels, tokSumM]
  | cons p t ih =>
    have hstep : tokSumM (alUpsert p.1 zeroME (mergeMEntry p.2) ex) =
        tokSumM ex + p.2.tokens := by
      simp only [tokSumM]
      exact sum_map_alUpsert (fun e => e.tokens) p.1 zeroME (mergeMEntry p.2) p.2.tokens
        (fun _ => rfl) rfl ex
    calc tokSumM (mergeModels ex (p :: t))
        = tokSumM (mergeModels (alUpsert p.1 zeroME (mergeMEntry p.2) ex) t) := rfl
      _ = tokSumM (alUpsert p.1 zeroME (mergeMEntry p.2) ex) + tokSumM t := ih _
      _ = tokSumM ex + p.2.tokens + tokSumM t := by rw [hstep]
      _ = tokSumM ex + tokSumM (p :: t) := by
            simp only [tokSumM, List.map_cons, List.sum_cons]
            ring

theorem reqSumM_mergeModels (ex dl : List (String × ModelEntry)) :
    reqSumM (mergeModels ex dl) = reqSumM ex + reqSumM dl := by
  induction dl generalizing ex with
  | nil => simp [mergeModels, reqSumM]
  | cons p t ih =>
    have hstep : reqSumM (alUpsert p.1 zeroME (mergeMEntry p.2) ex) =
        reqSumM ex + p.2.requests := by
      simp only [reqSumM]
      exact sum_map_alUpsert (fun e => e.requests) p.1 zeroME (mergeMEntry p.2) p.2.requests
        (fun _ => rfl) rfl ex
    calc reqSumM (mergeModels ex (p :: t))
        = reqSumM (mergeModels (alUpsert p.1 zeroME (mergeMEntry p.2) ex) t) := rfl
      _ = reqSumM (alUpsert p.1 zeroME (mergeMEntry p.2) ex) + reqSumM t := ih _
      _ = reqSumM ex + p.2.requests + reqSumM t := by rw [hstep]
      _ = reqSumM ex + reqSumM (p :: t) := by
            simp only [reqSumM, List.map_cons, List.sum_cons]
            ring

theorem costSumM_mergeModels (ex dl : List (String × ModelEntry)) :
    costSumM (mergeModels ex dl) = costSumM ex + costSumM dl := by
  induction dl generalizing ex with
  | nil => simp [mergeModels, costSumM]
  | cons p t ih =>
    have hstep : costSumM (alUpsert p.1 zeroME (mergeMEntry p.2) ex) =
        costSumM ex + p.2.cost := by
      simp only [costSumM]
      exact sum_map_alUpsert (fun e => e.cost) p.1 zeroME (mergeMEntry p.2) p.2.cost
        (fun _ => rfl) rfl ex
    calc costSumM (mergeModels ex (p :: t))
        = costSumM (mergeModels (alUpsert p.1 zeroME (mergeMEntry p.2) ex) t) := rfl
      _ = costSumM (alUpsert p.1 zeroME (mergeMEntry p.2) ex) + costSumM t := ih _
      _ = costSumM ex + p.2.cost + costSumM t := by rw [hstep]
      _ = costSumM ex + costSumM (p :: t) := by
            simp only [costSumM, List.map_cons, List.sum_cons]
            ring

/-! Monotone behaviour of the granular loop within an upstream lifetime. -/

theorem keyDelta_of_le {prevMap currMap : List ((String × String) × ModelUsage)}
    {k : String × String} (h1 : getReq prevMap k ≤ getReq currMap k)
    (h2 : getTok prevMap k ≤ getTok currMap k) :
    keyDelta prevMap currMap k =
      ⟨getReq currMap k - getReq prevMap k, getTok currMap k - getTok prevMap k,
       getCost currMap k - getCost prevMap k, getIn currMap k - getIn prevMap k,
       getOut currMap k - getOut prevMap k⟩ := by
  simp only [keyDelta]
  rw [if_neg]
  push_neg
  omega

theorem granStep_bd_sums_mono {prevMap currMap : List ((String × String) × ModelUsage)}
    {k : String × String} (h1 : getReq prevMap k ≤ getReq currMap k)
    (h2 : getTok prevMap k ≤ getTok currMap k)
    (h3 : getCost prevMap k ≤ getCost currMap k) (st : GranState) :
    reqSumM st.bd.models ≤ reqSumM (granStep prevMap currMap st k).bd.models ∧
    tokSumM st.bd.models ≤ tokSumM (granStep prevMap currMap st k).bd.models ∧
    costSumM st.bd.models ≤ costSumM (granStep prevMap currMap st k).bd.models := by
  simp only [granStep, keyDelta_of_le h1 h2]
  split_ifs
  · exact ⟨le_refl _, le_refl _, le_refl _⟩
  · refine ⟨?_, ?_, ?_⟩
    · rw [reqSumM_bump]
      dsimp only
      omega
    · rw [tokSumM_bump]
      dsimp only
      omega
    · rw [costSumM_bump]
      dsimp only
      linarith
  · exact ⟨le_refl _, le_refl _, le_refl _⟩

theorem granularFold_bd_sums_mono {prevMap currMap : List ((String × String) × ModelUsage)}
    (hm : ∀ k, getReq prevMap k ≤ getReq currMap k ∧ getTok prevMap k ≤ getTok currMap k ∧
      getCost prevMap k ≤ getCost currMap k)
    (keys : List (String × String)) (st : GranState) :
    reqSumM st.bd.models ≤ reqSumM (granularFold prevMap currMap st keys).bd.models ∧
    tokSumM st.bd.models ≤ tokSumM (granularFold prevMap currMap st keys).bd.models ∧
    costSumM st.bd.models ≤ costSumM (granularFold prevMap currMap st keys).bd.models := by
  induction keys generalizing st with
  | nil => exact ⟨le_refl _, le_refl _, le_refl _⟩
  | cons k t ih =>
    have hstep := granStep_bd_sums_mono (hm k).1 (hm k).2.1 (hm k).2.2 st
    have hrest := ih (granStep prevMap currMap st k)
    exact ⟨le_trans hstep.1 hrest.1, le_trans hstep.2.1 hrest.2.1,
           le_trans hstep.2.2 hrest.2.2⟩

/-! Monotone behaviour of the final merge step. -/

theorem finalizeDaily_mono_req (i : IncState) (b : Breakdown) (e : DailyRow)
    (hE : e.total_requests = reqSumM e.breakdown.models)
    (hI : i.incRequests = reqSumM b.models) (hS : 0 ≤ reqSumM b.models) :
    e.total_requests ≤ (finalizeDaily i b (some e)).total_requests := by
  simp only [finalizeDaily, reqSumM_mergeModels]
  split_ifs
  · rw [hE]
    omega
  · rw [hI]
    omega

theorem finalizeDaily_mono_tok (i : IncState) (b : Breakdown) (e : DailyRow)
    (hE : e.total_tokens = tokSumM e.breakdown.models)
    (hI : i.incTokens = tokSumM b.models) (hS : 0 ≤ tokSumM b.models) :
    e.total_tokens ≤ (finalizeDaily i b (some e)).total_tokens := by
  simp only [finalizeDaily, tokSumM_mergeModels]
  split_ifs
  · rw [hE]
    omega
  · rw [hI]
    omega

theorem finalizeDaily_mono_cost (i : IncState) (b : Breakdown) (e : DailyRow)
    (hE : e.estimated_cost_usd = costSumM e.breakdown.models)
    (hI : i.incCost = costSumM b.models) (hS : 0 ≤ costSumM b.models) :
    e.estimated_cost_usd ≤ (finalizeDaily i b (some e)).estimated_cost_usd := by
  simp only [finalizeDaily, costSumM_mergeModels]
  split_ifs with hpos
  · rw [hE]
    linarith
  · rw [hI]
    linarith

/-! Claim C2: monotonicity of the daily counters. -/

theorem epOr_chat : epOr "chat" = "chat" := by decide

/-- First report of the C2 counterexample run: global counters only, no
per-model breakdown. -/
def cexReport1 : UpstreamUsage := ⟨5, 5, 0, 50, []⟩

/-- Second report of the C2 counterexample run: counters grew (requests 5 to
6, tokens 50 to 60) and a model row appeared with 10 cumulative tokens, so
the sequence is well formed (all counters non-decreasing). -/
def cexReport2 : UpstreamUsage := ⟨6, 6, 0, 60, [("chat", [("modelA", ⟨1, 10, [(5, 5)]⟩)])]⟩

def cexPass1 : SnapRow × DailyRow := storeUsageData cexReport1 [] none [] none

def cexPass2 : SnapRow × DailyRow :=
  storeUsageData cexReport2 [] (some cexPass1.1) [] (some cexPass1.2)

/-- Claim C2, counterexample.  On the well-formed report sequence of
cexReport1 then cexReport2 (all upstream counters non-decreasing), the
stored daily total_tokens drops from 50 to 10 between the two passes: the
first pass seeded the row through the coarse-delta fallback (empty
breakdown), and the second pass snapped the totals down to the now-positive
breakdown sums. -/
theorem C2_counterexample_decreasing_day :
    cexPass1.2.total_tokens = 50 ∧ cexPass2.2.total_tokens = 10 ∧
    cexPass1.2.total_requests = 5 ∧ cexPass2.2.total_requests = 1 ∧
    cexPass2.2.total_tokens < cexPass1.2.total_tokens := by
  norm_num [cexPass1, cexPass2, cexReport1, cexReport2, storeUsageData, buildModelRecords,
    recordFor, calculateCost, findPricingForModel, findPartial, alFind, alSet, alUpsert,
    dedupF, calculateDailyDelta, deltaOfPass, coarseDelta, finalizeDaily, buildKeyMap,
    granularFold, granStep, keyDelta, getReq, getTok, getCost, getIn, getOut, bumpBreakdown,
    addME, addEpME, zeroME, zeroEP, zeroEpME, emptyBreakdown, firstSnapshotBreakdown,
    recordDelta, mergeModels, mergeMEntry, mergeEndpoints, tokSumM, reqSumM, costSumM,
    epOr_chat, strLower]

/-- Claim C2, amended.  For a pass over a previous snapshot whose stored
daily row is self-consistent (top-level totals equal to the breakdown model
sums, as every pass with positive breakdown sums leaves it), and whose
per-(model, endpoint) records are non-decreasing from the previous snapshot
to the current one (a well-formed sequence inside one upstream lifetime),
the stored daily total_requests, total_tokens and estimated_cost_usd do not
decrease. -/
theorem C2_amended_monotonic (p : SnapRow) (prevRecords currRecords : List ModelUsage)
    (curReq curSuc curFail curTok : ℤ) (cumulativeCost totalCost : ℚ) (e : DailyRow)
    (hR : e.total_requests = reqSumM e.breakdown.models)
    (hT : e.total_tokens = tokSumM e.breakdown.models)
    (hC : e.estimated_cost_usd = costSumM e.breakdown.models)
    (hm : ∀ k, getReq (buildKeyMap prevRecords) k ≤ getReq (buildKeyMap currRecords) k ∧
      getTok (buildKeyMap prevRecords) k ≤ getTok (buildKeyMap currRecords) k ∧
      getCost (buildKeyMap prevRecords) k ≤ getCost (buildKeyMap currRecords) k) :
    e.total_requests ≤ (calculateDailyDelta (some p) prevRecords currRecords curReq curSuc
      curFail curTok cumulativeCost totalCost (some e)).total_requests ∧
    e.total_tokens ≤ (calculateDailyDelta (some p) prevRecords currRecords curReq curSuc
      curFail curTok cumulativeCost totalCost (some e)).total_tokens ∧
    e.estimated_cost_usd ≤ (calculateDailyDelta (some p) prevRecords currRecords curReq curSuc
      curFail curTok cumulativeCost totalCost (some e)).estimated_cost_usd := by
  have hg := granularFold_bd_sums_mono hm
    (dedupF ((buildKeyMap prevRecords).map (fun q => q.1) ++
      (buildKeyMap currRecords).map (fun q => q.1)))
    ⟨(coarseDelta (some p) curReq curSuc curFail curTok cumulativeCost totalCost).incRequests,
     (coarseDelta (some p) curReq curSuc curFail curTok cumulativeCost totalCost).incTokens,
     (coarseDelta (some p) curReq curSuc curFail curTok cumulativeCost totalCost).incCost,
     emptyBreakdown⟩
  exact ⟨finalizeDaily_mono_req _ _ _ hR rfl hg.1,
         finalizeDaily_mono_tok _ _ _ hT rfl hg.2.1,
         finalizeDaily_mono_cost _ _ _ hC rfl hg.2.2⟩

def w2prev : List ModelUsage := [⟨"modelA", "chat", 1, 5, 5, 10, 1⟩]

def w2curr : List ModelUsage := [⟨"modelA", "chat", 2, 10, 10, 20, 2⟩]

def w2daily : DailyRow := ⟨1, 1, 0, 10, 1, ⟨[("modelA", ⟨1, 10, 1, 5, 5⟩)], []⟩⟩

/-- Witness for the amended claim C2 at a concrete self-consistent daily row
and a growing record pair. -/
theorem C2_amended_witness :
    w2daily.total_requests ≤ (calculateDailyDelta (some ⟨1, 1, 0, 10, 1⟩) w2prev w2curr
      2 2 0 20 2 2 (some w2daily)).total_requests ∧
    w2daily.total_tokens ≤ (calculateDailyDelta (some ⟨1, 1, 0, 10, 1⟩) w2prev w2curr
      2 2 0 20 2 2 (some w2daily)).total_tokens ∧
    w2daily.estimated_cost_usd ≤ (calculateDailyDelta (some ⟨1, 1, 0, 10, 1⟩) w2prev w2curr
      2 2 0 20 2 2 (some w2daily)).estimated_cost_usd :=
  C2_amended_monotonic ⟨1, 1, 0, 10, 1⟩ w2prev w2curr 2 2 0 20 2 2 w2daily
    (by norm_num [w2daily, reqSumM])
    (by norm_num [w2daily, tokSumM])
    (by norm_num [w2daily, costSumM])
    (by
      intro k
      by_cases hk : k = ("modelA", "chat")
      · subst hk
        refine ⟨?_, ?_, ?_⟩ <;>
          norm_num [w2prev, w2curr, getReq, getTok, getCost, buildKeyMap, alSet, alUpsert,
            alFind, epOr_chat]
      · have hk' : ¬ ((("modelA", "chat") : String × String) = k) := fun h => hk h.symm
        refine ⟨?_, ?_, ?_⟩ <;>
          simp [w2prev, w2curr, getReq, getTok, getCost, buildKeyMap, alSet, alUpsert,
            alFind, epOr_chat, hk'])

/-! Claim C3: the false-start filter. -/

theorem getReq_none {m : List ((String × String) × ModelUsage)} {k : String × String}
    (h : alFind k m = none) : getReq m k = 0 := by simp [getReq, h]

theorem getTok_none {m : List ((String × String) × ModelUsage)} {k : String × String}
    (h : alFind k m = none) : getTok m k = 0 := by simp [getTok, h]

theorem getCost_none {m : List ((String × String) × ModelUsage)} {k : String × String}
    (h : alFind k m = none) : getCost m k = 0 := by simp [getCost, h]

theorem getIn_none {m : List ((String × String) × ModelUsage)} {k : String × String}
    (h : alFind k m = none) : getIn m k = 0 := by simp [getIn, h]

theorem getOut_none {m : List ((String × String) × ModelUsage)} {k : String × String}
    (h : alFind k m = none) : getOut m k = 0 := by simp [getOut, h]

/-- A key absent from the previous snapshot gets its full current tuple as
its delta, through either branch of the restart substitution. -/
theorem keyDelta_prev_none {prevMap currMap : List ((String × String) × ModelUsage)}
    {k : String × String} (h : alFind k prevMap = none) :
    keyDelta prevMap currMap k =
      ⟨getReq currMap k, getTok currMap k, getCost currMap k, getIn currMap k,
       getOut currMap k⟩ := by
  simp only [keyDelta, getReq_none h, getTok_none h, getCost_none h, getIn_none h,
    getOut_none h, sub_zero]
  split_ifs <;> rfl

/-- One granular step never introduces the model m into the breakdown when
every key of model m is a fresh false start above the threshold. -/
theorem granStep_absent {prevMap currMap : List ((String × String) × ModelUsage)}
    {st : GranState} {k : String × String} {m : String}
    (hma : alFind m st.bd.models = none)
    (hk : k.1 = m → alFind k prevMap = none ∧
      ((alFind k currMap).isSome → 10 < getCost currMap k)) :
    alFind m (granStep prevMap currMap st k).bd.models = none := by
  by_cases hk1 : k.1 = m
  · obtain ⟨hpn, hc⟩ := hk hk1
    cases hcm : alFind k currMap with
    | some u =>
      have hcost := hc (by rw [hcm]; rfl)
      simp only [granStep, keyDelta_prev_none hpn]
      rw [if_pos ⟨hcost, by simp⟩]
      exact hma
    | none =>
      have h0c := getCost_none hcm
      have h0r := getReq_none hcm
      simp only [granStep, keyDelta_prev_none hpn, h0c, h0r]
      rw [if_neg (by norm_num), if_neg (by norm_num)]
      exact hma
  · simp only [granStep]
    split_ifs
    · exact hma
    · show alFind m (alUpsert k.1 zeroME _ st.bd.models) = none
      rw [alFind_alUpsert_ne _ _ _ (fun h => hk1 h.symm)]
      exact hma
    · exact hma

theorem granularFold_absent {prevMap currMap : List ((String × String) × ModelUsage)}
    {m : String}
    (hk : ∀ k : String × String, k.1 = m → alFind k prevMap = none ∧
      ((alFind k currMap).isSome → 10 < getCost currMap k))
    (keys : List (String × String)) (st : GranState)
    (hma : alFind m st.bd.models = none) :
    alFind m (granularFold prevMap currMap st keys).bd.models = none := by
  induction keys generalizing st with
  | nil => exact hma
  | cons k t ih => exact ih _ (granStep_absent hma (hk k))

theorem mergeModels_absent {m : String} {ex dl : List (String × ModelEntry)}
    (h1 : alFind m ex = none) (h2 : alFind m dl = none) :
    alFind m (mergeModels ex dl) = none := by
  induction dl generalizing ex with
  | nil => exact h1
  | cons p t ih =>
    have hne : ¬ (p.1 = m) := by
      intro hcon
      simp only [alFind, if_pos hcon] at h2
      exact Option.noConfusion h2
    have h2' : alFind m t = none := by
      simpa only [alFind, if_neg hne] using h2
    have h1' : alFind m (alUpsert p.1 zeroME (mergeMEntry p.2) ex) = none := by
      rw [alFind_alUpsert_ne _ _ _ (fun h => hne h.symm)]
      exact h1
    exact ih h1' h2'

/-- Claim C3.  First conjunct: in the granular step, a key whose delta cost
exceeds 10 USD and sits within 0.1 of its current snapshot cost is excluded
from the breakdown and its dReq, dTok and dCost are subtracted from the
coarse global increments.  Second conjunct: a model absent from the
previous snapshot whose every current key carries cost above 10 USD
contributes nothing to the merged daily breakdown of the pass. -/
theorem C3_false_start_filter :
    (∀ (prevMap currMap : List ((String × String) × ModelUsage)) (st : GranState)
       (k : String × String),
       10 < (keyDelta prevMap currMap k).dCost →
       |(keyDelta prevMap currMap k).dCost - getCost currMap k| < 1/10 →
       granStep prevMap currMap st k =
         ⟨st.incRequests - (keyDelta prevMap currMap k).dReq,
          st.incTokens - (keyDelta prevMap currMap k).dTok,
          st.incCost - (keyDelta prevMap currMap k).dCost, st.bd⟩) ∧
    (∀ (p : SnapRow) (prevRecords currRecords : List ModelUsage)
       (curReq curSuc curFail curTok : ℤ) (cumulativeCost totalCost : ℚ) (e : DailyRow)
       (m : String),
       alFind m e.breakdown.models = none →
       (∀ k : String × String, k.1 = m → alFind k (buildKeyMap prevRecords) = none ∧
         ((alFind k (buildKeyMap currRecords)).isSome →
           10 < getCost (buildKeyMap currRecords) k)) →
       alFind m (calculateDailyDelta (some p) prevRecords currRecords curReq curSuc curFail
         curTok cumulativeCost totalCost (some e)).breakdown.models = none) := by
  constructor
  · intro prevMap currMap st k h1 h2
    simp only [granStep]
    rw [if_pos ⟨h1, h2⟩]
  · intro p prevRecords currRecords curReq curSuc curFail curTok cumulativeCost totalCost
      e m hex hk
    have habs := granularFold_absent hk
      (dedupF ((buildKeyMap prevRecords).map (fun q => q.1) ++
        (buildKeyMap currRecords).map (fun q => q.1)))
      ⟨(coarseDelta (some p) curReq curSuc curFail curTok cumulativeCost
          totalCost).incRequests,
       (coarseDelta (some p) curReq curSuc curFail curTok cumulativeCost
          totalCost).incTokens,
       (coarseDelta (some p) curReq curSuc curFail curTok cumulativeCost
          totalCost).incCost,
       emptyBreakdown⟩ rfl
    exact mergeModels_absent hex habs

/-- Witness for claim C3: a never-seen model arriving with 45 USD of
cumulative cost is absent from the daily breakdown written by the pass. -/
theorem C3_witness :
    alFind "bigmodel" (calculateDailyDelta (some ⟨1, 1, 0, 10, 1⟩) []
      [⟨"bigmodel", "chat", 50, 500000, 500000, 1000000, 45⟩] 51 51 0 1000010 46 45
      (some ⟨0, 0, 0, 0, 0, ⟨[], []⟩⟩)).breakdown.models = none :=
  C3_false_start_filter.2 ⟨1, 1, 0, 10, 1⟩ []
    [⟨"bigmodel", "chat", 50, 500000, 500000, 1000000, 45⟩] 51 51 0 1000010 46 45
    ⟨0, 0, 0, 0, 0, ⟨[], []⟩⟩ "bigmodel" rfl
    (by
      intro k hk1
      constructor
      · rfl
      · intro hsome
        by_cases hk : k = ("bigmodel", "chat")
        · subst hk
          norm_num [getCost, buildKeyMap, alSet, alUpsert, alFind, epOr_chat]
        · exfalso
          have hk' : ¬ ((("bigmodel", "chat") : String × String) = k) := fun h => hk h.symm
          rw [show buildKeyMap [⟨"bigmodel", "chat", 50, 500000, 500000, 1000000, 45⟩] =
              [((("bigmodel" : String), ("chat" : String)),
                ⟨"bigmodel", "chat", 50, 500000, 500000, 1000000, 45⟩)] from rfl] at hsome
          simp only [alFind, if_neg hk'] at hsome
          simp at hsome)

/-! Claim C4: upstream-restart handling. -/

theorem alUpsert_forall {κ α : Type} [DecidableEq κ] (P : α → Prop) (k : κ) (init : α)
    (f : α → α) (l : List (κ × α)) (hl : ∀ q ∈ l, P q.2) (hfi : P (f init))
    (hfp : ∀ v, P v → P (f v)) : ∀ q ∈ alUpsert k init f l, P q.2 := by
  induction l with
  | nil =>
    intro q hq
    simp only [alUpsert, List.mem_singleton] at hq
    subst hq
    exact hfi
  | cons p t ih =>
    obtain ⟨k2, v⟩ := p
    intro q hq
    by_cases h2 : k2 = k
    · simp only [alUpsert, if_pos h2, List.mem_cons] at hq
      rcases hq with rfl | hq
      · exact hfp v (hl (k2, v) (List.mem_cons_self _ _))
      · exact hl q (List.mem_cons_of_mem _ hq)
    · simp only [alUpsert, if_neg h2, List.mem_cons] at hq
      rcases hq with rfl | hq
      · exact hl (k2, v) (List.mem_cons_self _ _)
      · exact ih (fun r hr => hl r (List.mem_cons_of_mem _ hr)) q hq

/-- Post-reset conditions on one key: a key present in both snapshots shows a
negative request or token delta; current cost is small (at most the 10 USD
false-start threshold); a reported key has positive requests; and the stored
per-key counters are non-negative. -/
def ResetKeyOk (prevMap currMap : List ((String × String) × ModelUsage))
    (k : String × String) : Prop :=
  ((alFind k prevMap).isSome → (alFind k currMap).isSome →
    (getReq currMap k - getReq prevMap k < 0 ∨ getTok currMap k - getTok prevMap k < 0)) ∧
  getCost currMap k ≤ 10 ∧
  ((alFind k currMap).isSome → 0 < getReq currMap k) ∧
  0 ≤ getCost prevMap k ∧ 0 ≤ getReq prevMap k ∧
  0 ≤ getTok currMap k ∧ 0 ≤ getCost currMap k

/-- After a reset, one granular step either leaves the state unchanged (the
key is no longer reported, and its current values are all zero) or folds the
key's full current tuple into the breakdown. -/
theorem granStep_reset {prevMap currMap : List ((String × String) × ModelUsage)}
    {k : String × String} (st : GranState) (hk : ResetKeyOk prevMap currMap k) :
    (granStep prevMap currMap st k = st ∧ getReq currMap k = 0 ∧ getTok currMap k = 0 ∧
      getCost currMap k = 0) ∨
    (granStep prevMap currMap st k =
      ⟨st.incRequests, st.incTokens, st.incCost,
        bumpBreakdown k.1 k.2
          (⟨getReq currMap k, getTok currMap k, getCost currMap k, getIn currMap k,
            getOut currMap k⟩ : Delta5) st.bd⟩ ∧
      0 < getReq currMap k) := by
  obtain ⟨h1, h2, h3, h4, h6, h5t, h5c⟩ := hk
  by_cases hcm : (alFind k currMap).isSome
  · have hr := h3 hcm
    have hd : keyDelta prevMap currMap k =
        ⟨getReq currMap k, getTok currMap k, getCost currMap k, getIn currMap k,
         getOut currMap k⟩ := by
      by_cases hpm : (alFind k prevMap).isSome
      · simp only [keyDelta]
        rw [if_pos (h1 hpm hcm)]
      · exact keyDelta_prev_none (Option.not_isSome_iff_eq_none.mp hpm)
    right
    refine ⟨?_, hr⟩
    simp only [granStep, hd]
    rw [if_neg ?hskip, if_pos (Or.inl hr)]
    case hskip =>
      intro hcon
      exact absurd hcon.1 (not_lt.mpr h2)
  · have hcn : alFind k currMap = none := Option.not_isSome_iff_eq_none.mp hcm
    have h0r := getReq_none hcn
    have h0t := getTok_none hcn
    have h0c := getCost_none hcn
    left
    refine ⟨?_, h0r, h0t, h0c⟩
    by_cases hsub : getReq currMap k - getReq prevMap k < 0 ∨
        getTok currMap k - getTok prevMap k < 0
    · have hd : keyDelta prevMap currMap k =
          ⟨getReq currMap k, getTok currMap k, getCost currMap k, getIn currMap k,
           getOut currMap k⟩ := by
        simp only [keyDelta]
        rw [if_pos hsub]
      simp only [granStep, hd, h0r, h0t, h0c]
      rw [if_neg (by norm_num), if_neg (by norm_num)]
    · have hd : keyDelta prevMap currMap k =
          ⟨getReq currMap k - getReq prevMap k, getTok currMap k - getTok prevMap k,
           getCost currMap k - getCost prevMap k, getIn currMap k - getIn prevMap k,
           getOut currMap k - getOut prevMap k⟩ := by
        simp only [keyDelta]
        rw [if_neg hsub]
      simp only [granStep, hd, h0r, h0t, h0c]
      rw [if_neg ?hskip2, if_neg ?hfold2]
      case hskip2 =>
        intro hcon
        have hcon1 := hcon.1
        linarith
      case hfold2 =>
        intro hcon
        rcases hcon with hcon | hcon
        · omega
        · linarith

/-- The granular fold after a reset: the breakdown-delta sums equal the sums
of the current per-key values over the visited keys, and every written model
entry is non-negative. -/
theorem granularFold_reset {prevMap currMap : List ((String × String) × ModelUsage)}
    (keys : List (String × String))
    (H : ∀ k ∈ keys, ResetKeyOk prevMap currMap k) (st : GranState) :
    reqSumM (granularFold prevMap currMap st keys).bd.models =
      reqSumM st.bd.models + (keys.map (fun k => getReq currMap k)).sum ∧
    tokSumM (granularFold prevMap currMap st keys).bd.models =
      tokSumM st.bd.models + (keys.map (fun k => getTok currMap k)).sum ∧
    costSumM (granularFold prevMap currMap st keys).bd.models =
      costSumM st.bd.models + (keys.map (fun k => getCost currMap k)).sum ∧
    ((∀ q ∈ st.bd.models, 0 ≤ q.2.requests ∧ 0 ≤ q.2.tokens ∧ 0 ≤ q.2.cost) →
      ∀ q ∈ (granularFold prevMap currMap st keys).bd.models,
        0 ≤ q.2.requests ∧ 0 ≤ q.2.tokens ∧ 0 ≤ q.2.cost) := by
  induction keys generalizing st with
  | nil =>
    refine ⟨by simp [granularFold], by simp [granularFold], by simp [granularFold],
      fun h => ?_⟩
    simpa [granularFold] using h
  | cons k t ih =>
    have hstep := granStep_reset st (H k (List.mem_cons_self _ _))
    have Ht : ∀ k2 ∈ t, ResetKeyOk prevMap currMap k2 :=
      fun k2 hk2 => H k2 (List.mem_cons_of_mem _ hk2)
    have hfoldcons : granularFold prevMap currMap st (k :: t) =
        granularFold prevMap currMap (granStep prevMap currMap st k) t := rfl
    rcases hstep with ⟨heq, hr0, ht0, hc0⟩ | ⟨heq, hrpos⟩
    · have hrec := ih Ht st
      rw [hfoldcons, heq]
      refine ⟨?_, ?_, ?_, hrec.2.2.2⟩
      · rw [hrec.1]
        simp [hr0]
      · rw [hrec.2.1]
        simp [ht0]
      · rw [hrec.2.2.1]
        simp [hc0]
    · set d : Delta5 := ⟨getReq currMap k, getTok currMap k, getCost currMap k,
        getIn currMap k, getOut currMap k⟩ with hdd
      have hrec := ih Ht ⟨st.incRequests, st.incTokens, st.incCost,
        bumpBreakdown k.1 k.2 d st.bd⟩
      rw [hfoldcons, heq]
      obtain ⟨hH1, hH2, hH3, hH4, hH6, hH5t, hH5c⟩ := H k (List.mem_cons_self _ _)
      refine ⟨?_, ?_, ?_, ?_⟩
      · rw [hrec.1]
        show reqSumM (bumpBreakdown k.1 k.2 d st.bd).models + _ = _
        rw [reqSumM_bump]
        simp only [List.map_cons, List.sum_cons, hdd]
        ring
      · rw [hrec.2.1]
        show tokSumM (bumpBreakdown k.1 k.2 d st.bd).models + _ = _
        rw [tokSumM_bump]
        simp only [List.map_cons, List.sum_cons, hdd]
        ring
      · rw [hrec.2.2.1]
        show costSumM (bumpBreakdown k.1 k.2 d st.bd).models + _ = _
        rw [costSumM_bump]
        simp only [List.map_cons, List.sum_cons, hdd]
        ring
      · intro hst
        refine hrec.2.2.2 ?_
        show ∀ q ∈ (bumpBreakdown k.1 k.2 d st.bd).models, _
        refine alUpsert_forall
          (fun v => 0 ≤ v.requests ∧ 0 ≤ v.tokens ∧ 0 ≤ v.cost)
          k.1 zeroME (addME d) st.bd.models hst ?_ ?_
        · show 0 ≤ zeroME.requests + d.dReq ∧ 0 ≤ zeroME.tokens + d.dTok ∧
            0 ≤ zeroME.cost + d.dCost
          simp only [zeroME, hdd, zero_add]
          exact ⟨le_of_lt hrpos, hH5t, hH5c⟩
        · intro v hv
          refine ⟨?_, ?_, ?_⟩
          · show 0 ≤ v.requests + d.dReq
            simp only [hdd]
            omega
          · show 0 ≤ v.tokens + d.dTok
            simp only [hdd]
            omega
          · show 0 ≤ v.cost + d.dCost
            simp only [hdd]
            linarith [hv.2.2]

/-- Claim C4.  First conjunct: a negative coarse requests or tokens delta
resets every global increment to the current snapshot's values, the cost
increment becoming the current snapshot's own total cost.  Second conjunct:
a key with negative request or token delta has its delta tuple replaced by
its current-snapshot tuple.  Third conjunct: on the pass after an upstream
counter reset (every surviving key showing a negative delta, post-reset
values small and positive requests), the breakdown delta equals the
post-reset current values, summed per dimension over the visited keys, and
every per-model entry written is non-negative. -/
theorem C4_restart_recovery :
    (∀ (p : SnapRow) (curReq curSuc curFail curTok : ℤ) (cumulativeCost totalCost : ℚ),
      (curReq - p.total_requests < 0 ∨ curTok - p.total_tokens < 0) →
      coarseDelta (some p) curReq curSuc curFail curTok cumulativeCost totalCost =
        ⟨curReq, curSuc, curFail, curTok, totalCost⟩) ∧
    (∀ (prevMap currMap : List ((String × String) × ModelUsage)) (k : String × String),
      (getReq currMap k - getReq prevMap k < 0 ∨ getTok currMap k - getTok prevMap k < 0) →
      keyDelta prevMap currMap k =
        ⟨getReq currMap k, getTok currMap k, getCost currMap k, getIn currMap k,
         getOut currMap k⟩) ∧
    (∀ (prevMap currMap : List ((String × String) × ModelUsage))
       (keys : List (String × String)),
      (∀ k ∈ keys, ResetKeyOk prevMap currMap k) →
      ∀ (ir it : ℤ) (ic : ℚ),
        reqSumM (granularFold prevMap currMap ⟨ir, it, ic, emptyBreakdown⟩ keys).bd.models =
          (keys.map (fun k => getReq currMap k)).sum ∧
        tokSumM (granularFold prevMap currMap ⟨ir, it, ic, emptyBreakdown⟩ keys).bd.models =
          (keys.map (fun k => getTok currMap k)).sum ∧
        costSumM (granularFold prevMap currMap ⟨ir, it, ic, emptyBreakdown⟩ keys).bd.models =
          (keys.map (fun k => getCost currMap k)).sum ∧
        (∀ q ∈ (granularFold prevMap currMap ⟨ir, it, ic, emptyBreakdown⟩ keys).bd.models,
          0 ≤ q.2.requests ∧ 0 ≤ q.2.tokens ∧ 0 ≤ q.2.cost)) := by
  refine ⟨?_, ?_, ?_⟩
  · intro p curReq curSuc curFail curTok cumulativeCost totalCost h
    simp only [coarseDelta]
    rw [if_pos h]
  · intro prevMap currMap k h
    simp only [keyDelta]
    rw [if_pos h]
  · intro prevMap currMap keys H ir it ic
    have hfold := granularFold_reset keys H ⟨ir, it, ic, emptyBreakdown⟩
    refine ⟨?_, ?_, ?_, hfold.2.2.2 (by simp [emptyBreakdown])⟩
    · rw [hfold.1]
      simp [emptyBreakdown, reqSumM]
    · rw [hfold.2.1]
      simp [emptyBreakdown, tokSumM]
    · rw [hfold.2.2.1]
      simp [emptyBreakdown, costSumM]

/-- Witness for claim C4 on a concrete reset: the previous snapshot carried
(100 requests, 1000 tokens, 5 USD) for the key and the current one carries
(2, 20, 1), coarse counters also dropping, so the coarse and per-key deltas
become the current values and the breakdown delta equals them. -/
theorem C4_witness :
    coarseDelta (some ⟨100, 100, 0, 1000, 5⟩) 2 2 0 20 6 1 = ⟨2, 2, 0, 20, 1⟩ ∧
    reqSumM (granularFold
      (buildKeyMap [⟨"m", "chat", 100, 500, 500, 1000, 5⟩])
      (buildKeyMap [⟨"m", "chat", 2, 10, 10, 20, 1⟩])
      ⟨2, 20, 1, emptyBreakdown⟩ [("m", "chat")]).bd.models =
      ([("m", "chat")].map
        (fun k => getReq (buildKeyMap [⟨"m", "chat", 2, 10, 10, 20, 1⟩]) k)).sum := by
  constructor
  · exact (C4_restart_recovery.1 ⟨100, 100, 0, 1000, 5⟩ 2 2 0 20 6 1 (by norm_num))
  · refine (C4_restart_recovery.2.2
      (buildKeyMap [⟨"m", "chat", 100, 500, 500, 1000, 5⟩])
      (buildKeyMap [⟨"m", "chat", 2, 10, 10, 20, 1⟩])
      [("m", "chat")] ?_ 2 20 1).1
    intro k hkmem
    simp only [List.mem_singleton] at hkmem
    subst hkmem
    refine ⟨?_, ?_, ?_, ?_, ?_, ?_, ?_⟩ <;>
      norm_num [getReq, getTok, getCost, buildKeyMap, alSet, alUpsert, alFind, epOr_chat]

/-! Claim C9: the reset endpoint. -/

theorem startsWithL_append (l1 l2 n : List Char) (h : startsWithL l1 n = true) :
    startsWithL (l1 ++ l2) n = true := by
  induction n generalizing l1 with
  | nil => cases l1 ++ l2 <;> rfl
  | cons b t ih =>
    cases l1 with
    | nil => simp [startsWithL] at h
    | cons a s =>
      simp only [startsWithL, Bool.and_eq_true] at h
      simp only [List.cons_append, startsWithL, Bool.and_eq_true]
      exact ⟨h.1, ih s h.2⟩

theorem occursL_append_right (n l1 l2 : List Char) (h : occursL n l2 = true) :
    occursL n (l1 ++ l2) = true := by
  induction l1 with
  | nil => exact h
  | cons a t ih =>
    simp only [List.cons_append, occursL, Bool.or_eq_true]
    exact Or.inr ih

/-- The not-found message produced by resetLimit contains "not found"
regardless of the rendered config id. -/
theorem strIncludes_notFound (s : String) :
    strIncludes ("Configuration with id " ++ s ++ " not found.") "not found" = true := by
  unfold strIncludes
  rw [Bool.or_eq_true]
  right
  rw [String.data_append, String.data_append]
  rw [List.append_assoc]
  apply occursL_append_right
  apply occursL_append_right
  decide

def cfg3 : RLConfig := ⟨"gpt", 60, ResetStrategy.rolling, some 10000, none, none⟩

/-- Claim C9, counterexample.  The claim requires 400 when the id is not an
integer, but the handler applies JS parseInt, which reads the leading digit
run: the non-integer path parameter "3x" is treated as config id 3 and the
request succeeds with 200 instead of returning 400. -/
theorem C9_counterexample_parseInt_prefix :
    jsParseInt "3x" = some 3 ∧
    (handleReset "3x" [(3, cfg3)] true 0).code = 200 ∧
    ¬ (handleReset "3x" [(3, cfg3)] true 0).code = 400 := by decide

/-- Claim C9, amended.  POST /api/collector/reset/{config_id} returns 400
only when parseInt finds no leading integer in the id (an id with trailing
garbage is treated as its integer prefix); otherwise it returns 404 when no
config with the parsed id exists, 500 when persistence fails, and 200 with
new_status.percentage = 100 on success, writing a RateLimitStatus with
used_tokens = 0, used_requests = 0, percentage = 100, window_start and
last_updated set to the current local time, and setting the config's
reset_anchor_timestamp to that time. -/
theorem C9_amended_reset_endpoint (param : String) (configs : List (ℤ × RLConfig))
    (persistOk : Bool) (now : ℤ) :
    (jsParseInt param = none → handleReset param configs persistOk now = ⟨400, none⟩) ∧
    (∀ cid, jsParseInt param = some cid →
      (alFind cid configs = none → handleReset param configs persistOk now = ⟨404, none⟩) ∧
      (∀ cfg, alFind cid configs = some cfg → persistOk = true →
        handleReset param configs persistOk now = ⟨200, some 100⟩ ∧
        (resetLimit configs cid persistOk now).writtenStatus =
          some ⟨cid, cfg.token_limit.getD 0, cfg.request_limit.getD 0, 0, 0, 100,
            resetLabel cfg, now, now, none⟩ ∧
        (resetLimit configs cid persistOk now).writtenAnchor = some now) ∧
      (∀ cfg, alFind cid configs = some cfg → persistOk = false →
        handleReset param configs persistOk now = ⟨500, none⟩)) := by
  constructor
  · intro h
    simp [handleReset, h]
  · intro cid hsome
    refine ⟨?_, ?_, ?_⟩
    · intro hnone
      simp [handleReset, hsome, resetLimit, hnone, strIncludes_notFound]
    · intro cfg hcfg hper
      subst hper
      refine ⟨?_, ?_, ?_⟩ <;> simp [handleReset, hsome, resetLimit, hcfg]
    · intro cfg hcfg hper
      subst hper
      simp [handleReset, hsome, resetLimit, hcfg]
      decide

/-- Witness for the amended claim C9: resetting a missing config id returns
404. -/
theorem C9_amended_witness :
    handleReset "9" [] true 5 = ⟨404, none⟩ :=
  ((C9_amended_reset_endpoint "9" [] true 5).2 9 (by decide)).1 rfl

/-! Claim C6: the reset anchor takes effect. -/

theorem alFind_map_keys {κ α : Type} [DecidableEq κ] (ks : List κ) (f : κ → α) (m : κ) :
    alFind m (ks.map (fun k => (k, f k))) = if m ∈ ks then some (f m) else none := by
  induction ks with
  | nil => simp [alFind]
  | cons a t ih =>
    by_cases h2 : a = m
    · subst h2
      simp [alFind]
    · simp only [List.map_cons, alFind, if_neg h2, ih, List.mem_cons]
      have : ¬ (m = a) := fun h => h2 h.symm
      simp [this]

/-- Interpolating between two pointwise-equal snapshot maps returns a map
pointwise equal to the baseline: each entry interpolates between equal
endpoints and rounds back to itself. -/
theorem alFind_interpolate_self {base inner : List (String × SnapEntry)} (r : ℚ)
    (h : ∀ m, alFind m base = alFind m inner) (m : String) :
    alFind m (interpolateSnapshotMap base inner r) = alFind m base := by
  unfold interpolateSnapshotMap
  rw [alFind_map_keys]
  by_cases hm : m ∈ dedupF (base.map (fun p => p.1) ++ inner.map (fun p => p.1))
  · rw [if_pos hm]
    have hsome : (alFind m base).isSome := by
      rw [mem_dedupF_iff, List.mem_append] at hm
      rcases hm with hm | hm
      · exact alFind_isSome_of_mem_keys hm
      · rw [h m]
        exact alFind_isSome_of_mem_keys hm
    obtain ⟨e, he⟩ := Option.isSome_iff_exists.mp hsome
    have hinner : alFind m inner = some e := (h m).symm.trans he
    rw [he, hinner]
    simp only [Option.getD_some, sub_self, mul_zero, add_zero, round_intCast]
  · rw [if_neg hm]
    symm
    apply alFind_eq_none_of_not_mem_keys
    intro hmem
    exact hm (mem_dedupF_iff.mpr (List.mem_append.mpr (Or.inl hmem)))

/-- A pointwise-equal current and baseline map makes every per-model delta
zero, so the fold accumulates nothing. -/
theorem calcDeltaFold_zero {curr base : List (String × SnapEntry)}
    (h : ∀ m, alFind m curr = alFind m base) (ms : List String) (acc : ℤ × ℤ) :
    ms.foldl (calcDeltaStep curr base) acc = acc := by
  induction ms generalizing acc with
  | nil => rfl
  | cons m t ih =>
    have hstep : calcDeltaStep curr base acc m = acc := by
      simp [calcDeltaStep, h m]
    rw [List.foldl_cons, hstep]
    exact ih acc

theorem calculateDeltaFromSnapshots_zero (rows : List MURow) (pat : String)
    (latestT baselineT : ℤ) (override : Option (List (String × SnapEntry)))
    (h : ∀ m, alFind m (buildSnapshotMap rows pat latestT) =
      alFind m (override.getD (buildSnapshotMap rows pat baselineT))) :
    calculateDeltaFromSnapshots rows pat latestT baselineT override = ⟨0, 0⟩ := by
  simp only [calculateDeltaFromSnapshots]
  rw [calcDeltaFold_zero h]

/-- Usage over a window in which the selected snapshots are pointwise equal
(raw usage unchanged) is zero, through every branch of calculateUsage
including the gap-interpolation branch. -/
theorem calculateUsage_zero (rows : List MURow) (pat : String) (since : ℤ)
    (hfi : ∀ tl tf, latestTime rows pat = some tl → firstInnerTime rows pat since = some tf →
      ∀ m, alFind m (buildSnapshotMap rows pat tl) = alFind m (buildSnapshotMap rows pat tf))
    (hb : ∀ tl tb, latestTime rows pat = some tl → baselineTimeF rows pat since = some tb →
      ∀ m, alFind m (buildSnapshotMap rows pat tl) =
        alFind m (buildSnapshotMap rows pat tb)) :
    calculateUsage rows pat since = ⟨0, 0⟩ := by
  cases hlt : latestTime rows pat with
  | none => simp [calculateUsage, hlt]
  | some tl =>
    simp only [calculateUsage, hlt]
    by_cases hsince : tl < since
    · rw [if_pos hsince]
    · rw [if_neg hsince]
      cases hbt : baselineTimeF rows pat since with
      | none =>
        cases hft : firstInnerTime rows pat since with
        | none => rfl
        | some fi =>
          exact calculateDeltaFromSnapshots_zero rows pat tl fi none (hfi tl fi hlt hft)
      | some b =>
        cases hft : firstInnerTime rows pat since with
        | some fi =>
          dsimp only
          by_cases hgap : GAP_THRESHOLD_SECONDS < fi - b
          · rw [if_pos hgap]
            have hbi : ∀ m, alFind m (buildSnapshotMap rows pat b) =
                alFind m (buildSnapshotMap rows pat fi) :=
              fun m => (hb tl b hlt hbt m).symm.trans (hfi tl fi hlt hft m)
            apply calculateDeltaFromSnapshots_zero
            intro m
            rw [Option.getD_some, alFind_interpolate_self _ hbi m]
            exact hb tl b hlt hbt m
          · rw [if_neg hgap]
            exact calculateDeltaFromSnapshots_zero rows pat tl b none (hb tl b hlt hbt)
        | none =>
          exact calculateDeltaFromSnapshots_zero rows pat tl b none (hb tl b hlt hbt)

/-- With zero usage the written percentage is always 100, whatever limits
the config declares. -/
theorem updateStatus_pct_zero (cid ws now : ℤ) (nr : Option ℤ) (tl rl : Option ℤ) :
    (updateStatus cid 0 0 ws now nr tl rl).percentage = 100 := by
  have hfull : ∀ t : ℤ, 0 < t → ⌊((max 0 (t - 0) : ℤ) : ℚ) / (t : ℚ) * 100⌋ = 100 := by
    intro t ht
    have h1 : (max 0 (t - 0) : ℤ) = t := by omega
    rw [h1, div_self (by exact_mod_cast ht.ne'), one_mul]
    norm_num
  unfold updateStatus
  cases tl with
  | some t =>
    by_cases ht : 0 < t
    · simp only [if_pos ht, hfull t ht]
      rfl
    · cases rl with
      | some r =>
        by_cases hr : 0 < r
        · simp only [if_neg ht, if_pos hr, hfull r hr]
          rfl
        · simp only [if_neg ht, if_neg hr]
          rfl
      | none =>
        simp only [if_neg ht]
        rfl
  | none =>
    cases rl with
    | some r =>
      by_cases hr : 0 < r
      · simp only [if_pos hr, hfull r hr]
        rfl
      · simp only [if_neg hr]
        rfl
    | none => rfl

/-- Claim C6.  An anchor strictly later than the natural window start is
used as the effective window start, while an anchor at or before it is
ignored; consequently, on the pass right after a successful reset (anchor
later than the natural start, snapshot maps unchanged since before the
anchor), the Reconciler writes window_start = anchor, used = 0 and
percentage = 100 even though raw usage has not changed. -/
theorem C6_reset_anchor (configId : ℤ) (modelPattern : String) (windowMinutes : ℤ)
    (resetStrategy : ResetStrategy) (tokenLimit requestLimit : Option ℤ)
    (rows : List MURow) (now anchorT : ℤ)
    (hlater : (computeWindow resetStrategy now windowMinutes).1 < anchorT)
    (hfi : ∀ tl tf, latestTime rows modelPattern = some tl →
      firstInnerTime rows modelPattern anchorT = some tf →
      ∀ m, alFind m (buildSnapshotMap rows modelPattern tl) =
        alFind m (buildSnapshotMap rows modelPattern tf))
    (hb : ∀ tl tb, latestTime rows modelPattern = some tl →
      baselineTimeF rows modelPattern anchorT = some tb →
      ∀ m, alFind m (buildSnapshotMap rows modelPattern tl) =
        alFind m (buildSnapshotMap rows modelPattern tb)) :
    (∀ a ws : ℤ, a ≤ ws → effectiveWindowStart (some a) ws = ws) ∧
    (processConfig configId modelPattern windowMinutes resetStrategy tokenLimit requestLimit
      (some anchorT) rows now).window_start = anchorT ∧
    (processConfig configId modelPattern windowMinutes resetStrategy tokenLimit requestLimit
      (some anchorT) rows now).used_tokens = 0 ∧
    (processConfig configId modelPattern windowMinutes resetStrategy tokenLimit requestLimit
      (some anchorT) rows now).used_requests = 0 ∧
    (processConfig configId modelPattern windowMinutes resetStrategy tokenLimit requestLimit
      (some anchorT) rows now).percentage = 100 := by
  have heff : effectiveWindowStart (some anchorT)
      (computeWindow resetStrategy now windowMinutes).1 = anchorT := by
    simp [effectiveWindowStart, if_pos hlater]
  have husage : calculateUsage rows modelPattern anchorT = ⟨0, 0⟩ :=
    calculateUsage_zero rows modelPattern anchorT hfi hb
  refine ⟨?_, ?_, ?_, ?_, ?_⟩
  · intro a ws hle
    simp [effectiveWindowStart, not_lt.mpr hle]
  · simp only [processConfig, heff, husage]
    rfl
  · simp only [processConfig, heff, husage]
    rfl
  · simp only [processConfig, heff, husage]
    rfl
  · simp only [processConfig, heff, husage]
    exact updateStatus_pct_zero configId anchorT now
      (some (computeWindow resetStrategy now windowMinutes).2) tokenLimit requestLimit

/-- Witness for claim C6: an empty row set with a fresh anchor inside a
rolling window yields window_start at the anchor, zero usage and a full
percentage. -/
theorem C6_witness :
    (processConfig 1 "gpt" 60 ResetStrategy.rolling (some 1000) none (some 100) []
      50).window_start = 100 ∧
    (processConfig 1 "gpt" 60 ResetStrategy.rolling (some 1000) none (some 100) []
      50).used_tokens = 0 ∧
    (processConfig 1 "gpt" 60 ResetStrategy.rolling (some 1000) none (some 100) []
      50).percentage = 100 := by
  have h := C6_reset_anchor 1 "gpt" 60 ResetStrategy.rolling (some 1000) none [] 50 100
    (by norm_num [computeWindow])
    (by
      intro tl tf h1 h2 m
      simp [latestTime, matchedRows, maxTime] at h1)
    (by
      intro tl tb h1 h2 m
      simp [latestTime, matchedRows, maxTime] at h1)
  exact ⟨h.2.1, h.2.2.1, h.2.2.2.2⟩

end CapUI
